import Mathlib

/-
Shallow embedding of fight.py: a 2D world map with occupancy grid, entities
registered on it, and character subtypes (Enemy, Wizard, Archer) with
movement, damage, protection, mana and healing mechanics.  Python objects
with reference semantics are modelled by a state holding the world and a
list of characters; grid cells hold indices into that list.  Methods become
state-transforming functions; Python exceptions become an Except layer.
The single random draw (number of spell attacks) is an explicit parameter.
-/

set_option maxHeartbeats 1000000

namespace Fight

/-- Errors raised by the Python code: ValueError on map dimensions,
ValueError on negative amounts (hit points, mana, heal or damage amounts),
and the defensive IndexError re-raise in Entity.remove. -/
inductive Err where
  | invalidDimension
  | invalidAmount
  | indexError
deriving DecidableEq

/-- The dynamic class of a character: Character, Enemy, Wizard or Archer. -/
inductive CKind where
  | base
  | enemy
  | wizard
  | archer
deriving DecidableEq

/-- A Character object: position, hit points, protection, items, and for
wizards a mana pool (0 and unused for the other kinds). -/
structure Character where
  x : Int
  y : Int
  hit_points : Int
  protection : Int
  mana : Int
  items : List String
  kind : CKind
deriving DecidableEq

/-- WorldMap: width, height and the occupancy grid.  The Python constructor
builds a list of height rows each of length width but the code indexes it
as map[x][y]; the embedding keeps that layout exactly. -/
structure WorldMap where
  width : Int
  height : Int
  map : List (List (Option Nat))
deriving DecidableEq

/-- WorldMap.__init__: raises ValueError unless width and height are
positive. -/
def WorldMap.init (width height : Int) : Except Err WorldMap :=
  if width ≤ 0 then .error .invalidDimension
  else if height ≤ 0 then .error .invalidDimension
  else .ok { width := width, height := height,
             map := List.replicate height.toNat (List.replicate width.toNat none) }

/-- Reads grid cell map[x][y]; none when the indices fall off the lists
(the IndexError case) or the cell is empty. -/
def cellAt (w : WorldMap) (x y : Int) : Option Nat :=
  match w.map.get? x.toNat with
  | none => none
  | some row =>
    match row.get? y.toNat with
    | none => none
    | some cell => cell

/-- Writes grid cell map[x][y]; none models the IndexError raised by the
assignment when an index falls off a list. -/
def WorldMap.setCell (w : WorldMap) (x y : Int) (v : Option Nat) : Option WorldMap :=
  match w.map.get? x.toNat with
  | none => none
  | some row =>
    if y.toNat < row.length then
      some { w with map := w.map.set x.toNat (row.set y.toNat v) }
    else none

/-- WorldMap.is_occupied: true when out of bounds, when the guarded cell
read raises IndexError, or when the cell holds an entity. -/
def WorldMap.is_occupied (w : WorldMap) (x y : Int) : Bool :=
  if ¬ (0 ≤ x ∧ x < w.width ∧ 0 ≤ y ∧ y < w.height) then true
  else
    match w.map.get? x.toNat with
    | none => true
    | some row =>
      match row.get? y.toNat with
      | none => true
      | some cell => cell.isSome

/-- The whole mutable program state: the global world plus every character
object created so far; grid cells refer to characters by index. -/
structure GameState where
  world : WorldMap
  chars : List Character
deriving DecidableEq

/-- Entity._is_valid_position. -/
def is_valid_position (w : WorldMap) (x y : Int) : Bool :=
  decide (0 ≤ x ∧ x < w.width ∧ 0 ≤ y ∧ y < w.height)

/-- Entity.set_position: warns and leaves the state alone when (x, y) is
out of bounds; otherwise assigns self.x, self.y and then the grid cell.
The Python code updates the coordinates before the grid write, so a cell
write that raises IndexError (caught) leaves the coordinates updated. -/
def set_position (s : GameState) (i : Nat) (x y : Int) : GameState :=
  match s.chars.get? i with
  | none => s
  | some c =>
    if ¬ is_valid_position s.world x y then s
    else
      let s2 : GameState := { s with chars := s.chars.set i { c with x := x, y := y } }
      match s2.world.setCell x y (some i) with
      | some w2 => { s2 with world := w2 }
      | none => s2

/-- Entity.remove: no-op when the recorded position is not valid, else
clears the grid cell and resets the position to the (-1, -1) sentinel;
re-raises IndexError if the cell write fails. -/
def remove (s : GameState) (i : Nat) : Except Err GameState :=
  match s.chars.get? i with
  | none => .ok s
  | some c =>
    if ¬ is_valid_position s.world c.x c.y then .ok s
    else
      match s.world.setCell c.x c.y none with
      | some w2 => .ok { world := w2, chars := s.chars.set i { c with x := -1, y := -1 } }
      | none => .error .indexError

/-- Entity.distance: per-axis absolute deltas. -/
def distance (a b : Character) : Int × Int :=
  (|b.x - a.x|, |b.y - a.y|)

/-- Character.can_attack: melee range, horizontal distance exactly 1 and
vertical distance 0. -/
def can_attack (a b : Character) : Bool :=
  decide ((distance a b).1 = 1 ∧ (distance a b).2 = 0)

/-- Character.has_protection. -/
def has_protection (c : Character) : Bool :=
  decide (c.protection > 0)

/-- Character.gain_health: ValueError on a negative amount, else adds. -/
def gain_health (s : GameState) (i : Nat) (amount : Int) : Except Err GameState :=
  match s.chars.get? i with
  | none => .ok s
  | some c =>
    if amount < 0 then .error .invalidAmount
    else .ok { s with chars := s.chars.set i { c with hit_points := c.hit_points + amount } }

/-- Character.lose_health: ValueError on a negative amount; clamps hit
points at 0 and removes the character from the map when they reach 0. -/
def lose_health (s : GameState) (i : Nat) (reduction : Int) : Except Err GameState :=
  match s.chars.get? i with
  | none => .ok s
  | some c =>
    if reduction < 0 then .error .invalidAmount
    else
      let c2 : Character := { c with hit_points := max (c.hit_points - reduction) 0 }
      let s2 : GameState := { s with chars := s.chars.set i c2 }
      if c2.hit_points = 0 then remove s2 i else .ok s2

/-- Character.gain_protection. -/
def gain_protection (s : GameState) (i : Nat) (amount : Int) : Except Err GameState :=
  match s.chars.get? i with
  | none => .ok s
  | some c =>
    if amount < 0 then .error .invalidAmount
    else .ok { s with chars := s.chars.set i { c with protection := c.protection + amount } }

/-- Character.lose_protection: clamps protection at 0. -/
def lose_protection (s : GameState) (i : Nat) (reduction : Int) : Except Err GameState :=
  match s.chars.get? i with
  | none => .ok s
  | some c =>
    if reduction < 0 then .error .invalidAmount
    else .ok { s with chars := s.chars.set i { c with protection := max (c.protection - reduction) 0 } }

/-- Character._deal_damage: no-op out of melee range; otherwise protection
absorbs the hit when positive, else health takes it. -/
def deal_damage (s : GameState) (i j : Nat) (base_damage : Int) : Except Err GameState :=
  match s.chars.get? i, s.chars.get? j with
  | some a, some t =>
    if ¬ can_attack a t then .ok s
    else if ¬ has_protection t then lose_health s j base_damage
    else lose_protection s j base_damage
  | _, _ => .ok s

/-- Character.attack. -/
def attack (s : GameState) (i j : Nat) : Except Err GameState :=
  deal_damage s i j 10

/-- Character.power_attack. -/
def power_attack (s : GameState) (i j : Nat) : Except Err GameState :=
  deal_damage s i j 20

/-- ASCII lower-casing of a direction string, as str.lower does on the
four keywords the code compares against. -/
def lower_direction (d : String) : String :=
  ⟨d.data.map Char.toLower⟩

/-- Character._get_move_delta, after lower-casing the direction. -/
def get_move_delta (direction : String) : Option (Int × Int) :=
  if lower_direction direction = "left" then some (-1, 0)
  else if lower_direction direction = "right" then some (1, 0)
  else if lower_direction direction = "up" then some (0, 1)
  else if lower_direction direction = "down" then some (0, -1)
  else none

/-- The post-move hook: Wizard regenerates one mana, everyone else does
nothing. -/
def on_move_complete (s : GameState) (i : Nat) : GameState :=
  match s.chars.get? i with
  | none => s
  | some c =>
    match c.kind with
    | CKind.wizard => { s with chars := s.chars.set i { c with mana := c.mana + 1 } }
    | _ => s

/-- Character.move: invalid direction is caught and ignored; the new cell
is the unit step with toroidal wrap; an occupied destination rejects the
move; otherwise remove, re-place, and run the post-move hook. -/
def move (s : GameState) (i : Nat) (direction : String) : Except Err GameState :=
  match s.chars.get? i with
  | none => .ok s
  | some c =>
    match get_move_delta direction with
    | none => .ok s
    | some d =>
      let new_x := (c.x + d.1) % s.world.width
      let new_y := (c.y + d.2) % s.world.height
      if s.world.is_occupied new_x new_y then .ok s
      else
        match remove s i with
        | .error e => .error e
        | .ok s2 => .ok (on_move_complete (set_position s2 i new_x new_y) i)

/-- Archer.range_attack: the ranged gate is horizontal distance at most 5
with vertical distance 0; inside the gate it delegates to the common
damage helper (which re-checks melee range). -/
def range_attack (s : GameState) (i j : Nat) : Except Err GameState :=
  match s.chars.get? i, s.chars.get? j with
  | some a, some t =>
    if (distance a t).1 ≤ 5 ∧ (distance a t).2 = 0 then deal_damage s i j 5
    else .ok s
  | _, _ => .ok s

/-- The attack loop inside Wizard.cast_spell: n sequential basic attacks. -/
def attack_loop (s : GameState) (i j : Nat) : Nat → Except Err GameState
  | 0 => .ok s
  | Nat.succ n =>
    match attack s i j with
    | .error e => .error e
    | .ok s2 => attack_loop s2 i j n

/-- Wizard.cast_spell with the random draw passed in: requires 5 mana and
melee range, deducts 5 mana, then performs num_attacks basic attacks. -/
def cast_spell (s : GameState) (i j : Nat) (num_attacks : Nat) : Except Err GameState :=
  match s.chars.get? i, s.chars.get? j with
  | some w, some t =>
    if w.mana < 5 then .ok s
    else if ¬ can_attack w t then .ok s
    else
      let s2 : GameState := { s with chars := s.chars.set i { w with mana := w.mana - 5 } }
      attack_loop s2 i j num_attacks
  | _, _ => .ok s

/-- Wizard.heal: requires 5 mana (no range check), deducts 5 mana, then
the target gains a fixed 15 hit points. -/
def heal (s : GameState) (i j : Nat) : Except Err GameState :=
  match s.chars.get? i with
  | none => .ok s
  | some w =>
    if w.mana < 5 then .ok s
    else
      let s2 : GameState := { s with chars := s.chars.set i { w with mana := w.mana - 5 } }
      gain_health s2 j 15

/-- In-place edit of character i. -/
def updateChar (s : GameState) (i : Nat) (f : Character → Character) : GameState :=
  match s.chars.get? i with
  | none => s
  | some c => { s with chars := s.chars.set i (f c) }

/-- Construction of an Entity / Character / Enemy / Wizard / Archer: the
new object starts at the (-1, -1) sentinel, is placed only when the
requested cell is in bounds and unoccupied, and only then are hit points
(and for wizards mana) validated and assigned; a validation failure raises
after any placement already happened. -/
def construct (s : GameState) (kind : CKind) (x y hit_points mana : Int) :
    GameState × Except Err Nat :=
  let i := s.chars.length
  let c0 : Character :=
    { x := -1, y := -1, hit_points := 0, protection := 0, mana := 0, items := [], kind := kind }
  let s0 : GameState := { s with chars := s.chars ++ [c0] }
  let s1 :=
    if ¬ is_valid_position s0.world x y then s0
    else if s0.world.is_occupied x y then s0
    else set_position s0 i x y
  if hit_points < 0 then (s1, .error .invalidAmount)
  else
    let s2 := updateChar s1 i (fun c => { c with hit_points := hit_points, protection := 0, items := [] })
    if kind = CKind.wizard ∧ mana < 0 then (s2, .error .invalidAmount)
    else
      let s3 := if kind = CKind.wizard then updateChar s2 i (fun c => { c with mana := mana }) else s2
      (s3, .ok i)

/-- Position of character i, when it exists. -/
def posAt (s : GameState) (i : Nat) : Option (Int × Int) :=
  (s.chars.get? i).map (fun c => (c.x, c.y))

/-- Hit points of character i, when it exists. -/
def hpAt (s : GameState) (i : Nat) : Option Int :=
  (s.chars.get? i).map Character.hit_points

/-- Protection of character i, when it exists. -/
def protAt (s : GameState) (i : Nat) : Option Int :=
  (s.chars.get? i).map Character.protection

/-- Mana of character i, when it exists. -/
def manaAt (s : GameState) (i : Nat) : Option Int :=
  (s.chars.get? i).map Character.mana

/-- Extracts the state from a non-raising result, with a fallback. -/
def getOk (r : Except Err GameState) (d : GameState) : GameState :=
  match r with
  | .ok s => s
  | .error _ => d

/-- An empty square world of side n, as WorldMap.init builds it. -/
def emptyMap (n : Nat) : WorldMap :=
  { width := n, height := n, map := List.replicate n (List.replicate n none) }

/-- A fresh game state over an empty square world of side n. -/
def freshState (n : Nat) : GameState :=
  { world := emptyMap n, chars := [] }

/-- A well-formed world: the shape WorldMap.init gives the one world the
program ever creates (the square 100 by 100 global map), preserved by all
cell writes.  Squareness matters because the Python constructor builds the
grid transposed relative to the map[x][y] access pattern. -/
def WorldMap.WF (w : WorldMap) : Prop :=
  0 < w.width ∧ w.height = w.width ∧ w.map.length = w.width.toNat ∧
  ∀ k row, w.map.get? k = some row → row.length = w.width.toNat

theorem get?_some_lt {α : Type} {l : List α} {i : Nat} {a : α}
    (h : l.get? i = some a) : i < l.length := by
  rcases List.get?_eq_some.mp h with ⟨hl, _⟩
  exact hl

theorem get?_set_self {α : Type} {l : List α} {i : Nat} (a : α) (h : i < l.length) :
    (l.set i a).get? i = some a := by
  rw [List.get?_eq_getElem?]
  exact List.getElem?_set_self h

theorem get?_of_lt {α : Type} {l : List α} {i : Nat} (h : i < l.length) :
    ∃ a, l.get? i = some a := by
  cases hg : l.get? i with
  | none => exact absurd (List.get?_eq_none.mp hg) (by omega)
  | some a => exact ⟨a, rfl⟩

theorem is_valid_position_iff {w : WorldMap} {x y : Int} :
    is_valid_position w x y = true ↔ (0 ≤ x ∧ x < w.width ∧ 0 ≤ y ∧ y < w.height) := by
  simp [is_valid_position]

/-- Writing an in-bounds cell of a well-formed world succeeds and changes
exactly that cell. -/
theorem setCell_spec {w : WorldMap} (hWF : w.WF) {x y : Int} (v : Option Nat)
    (hx0 : 0 ≤ x) (hx : x < w.width) (hy0 : 0 ≤ y) (hy : y < w.height) :
    ∃ w2, w.setCell x y v = some w2 ∧ w2.width = w.width ∧ w2.height = w.height ∧
      w2.WF ∧ cellAt w2 x y = v ∧
      ∀ a b : Int, 0 ≤ a → 0 ≤ b → ¬ (a = x ∧ b = y) → cellAt w2 a b = cellAt w a b := by
  obtain ⟨hpos, hsq, hlen, hrows⟩ := hWF
  have hxlt : x.toNat < w.map.length := by omega
  obtain ⟨row, hrow⟩ := get?_of_lt hxlt
  have hrlen : row.length = w.width.toNat := hrows _ _ hrow
  have hylt : y.toNat < row.length := by omega
  refine ⟨{ w with map := w.map.set x.toNat (row.set y.toNat v) }, ?_, rfl, rfl, ?_, ?_, ?_⟩
  · simp only [WorldMap.setCell, hrow]
    rw [if_pos hylt]
  · refine ⟨hpos, hsq, by simpa using hlen, ?_⟩
    intro k row2 hk
    simp only [List.get?_set] at hk
    by_cases hke : x.toNat = k
    · subst hke
      rw [if_pos rfl, hrow] at hk
      simp only [Option.map_some] at hk
      cases hk
      simpa using hrlen
    · rw [if_neg hke] at hk
      exact hrows _ _ hk
  · have h1 : (w.map.set x.toNat (row.set y.toNat v))[x.toNat]? = some (row.set y.toNat v) :=
      List.getElem?_set_self hxlt
    have h2 : (row.set y.toNat v)[y.toNat]? = some v := List.getElem?_set_self hylt
    simp [cellAt, List.get?_eq_getElem?, h1, h2]
  · intro a b ha hb hab
    have h3 : w.map[x.toNat]? = some row := by
      rw [← List.get?_eq_getElem?]
      exact hrow
    by_cases hax : x.toNat = a.toNat
    · have hax2 : a = x := by omega
      have hby2 : b.toNat ≠ y.toNat := by
        intro hh
        exact hab ⟨hax2, by omega⟩
      have h1 : (w.map.set x.toNat (row.set y.toNat v))[a.toNat]? = some (row.set y.toNat v) := by
        rw [← hax]
        exact List.getElem?_set_self hxlt
      have h2 : (row.set y.toNat v)[b.toNat]? = row[b.toNat]? :=
        List.getElem?_set_ne (fun hh => hby2 hh.symm)
      have h4 : w.map[a.toNat]? = some row := by
        rw [← hax]
        exact h3
      simp [cellAt, List.get?_eq_getElem?, h1, h2, h4]
    · have h1 : (w.map.set x.toNat (row.set y.toNat v))[a.toNat]? = w.map[a.toNat]? :=
        List.getElem?_set_ne hax
      simp [cellAt, List.get?_eq_getElem?, h1]

theorem is_occupied_inb {w : WorldMap} (hWF : w.WF) {x y : Int}
    (hx0 : 0 ≤ x) (hx : x < w.width) (hy0 : 0 ≤ y) (hy : y < w.height) :
    w.is_occupied x y = (cellAt w x y).isSome := by
  obtain ⟨hpos, hsq, hlen, hrows⟩ := hWF
  have hxlt : x.toNat < w.map.length := by omega
  obtain ⟨row, hrow⟩ := get?_of_lt hxlt
  have hrlen : row.length = w.width.toNat := hrows _ _ hrow
  have hylt : y.toNat < row.length := by omega
  obtain ⟨cell, hcell⟩ := get?_of_lt hylt
  have hP : (0 ≤ x ∧ x < w.width ∧ 0 ≤ y ∧ y < w.height) := ⟨hx0, hx, hy0, hy⟩
  simp only [WorldMap.is_occupied, cellAt, hrow, hcell, if_neg (not_not_intro hP)]

theorem is_occupied_oob (w : WorldMap) {x y : Int}
    (h : ¬ (0 ≤ x ∧ x < w.width ∧ 0 ≤ y ∧ y < w.height)) :
    w.is_occupied x y = true := by
  unfold WorldMap.is_occupied
  rw [if_pos h]

/-- Every id stored in a grid cell refers to an existing character. -/
def GridIdsOk (s : GameState) : Prop :=
  ∀ x y : Int, 0 ≤ x → 0 ≤ y → ∀ j, cellAt s.world x y = some j → j < s.chars.length

/-- The grid-entity consistency invariant of the spec: an in-bounds cell
holds a character exactly when that character records this cell as its
position. -/
def GridConsistent (s : GameState) : Prop :=
  ∀ i c, s.chars.get? i = some c →
    ∀ x y : Int, 0 ≤ x → x < s.world.width → 0 ≤ y → y < s.world.height →
      (cellAt s.world x y = some i ↔ (c.x = x ∧ c.y = y))

/-- The inductive state invariant. -/
def Inv (s : GameState) : Prop :=
  s.world.WF ∧ GridIdsOk s ∧ GridConsistent s

theorem getElem?_of_get? {α : Type} {l : List α} {i : Nat} {o : Option α}
    (h : l.get? i = o) : l[i]? = o := by
  rw [← List.get?_eq_getElem?]
  exact h

/-- Replacing a character by one with the same coordinates keeps the
invariant. -/
theorem Inv_set_samepos {s : GameState} (hInv : Inv s) {i : Nat} {c c2 : Character}
    (hc : s.chars.get? i = some c) (hx : c2.x = c.x) (hy : c2.y = c.y) :
    Inv { s with chars := s.chars.set i c2 } := by
  obtain ⟨hWF, hIds, hCon⟩ := hInv
  refine ⟨hWF, ?_, ?_⟩
  · intro x y hx0 hy0 j hj
    have := hIds x y hx0 hy0 j hj
    simpa [List.length_set] using this
  · intro k ck hck x y hx0 hxw hy0 hyh
    by_cases hki : i = k
    · subst hki
      rw [get?_set_self c2 (get?_some_lt hc)] at hck
      cases hck
      rw [hx, hy]
      exact hCon i c hc x y hx0 hxw hy0 hyh
    · rw [List.get?_set_ne _ _ hki] at hck
      exact hCon k ck hck x y hx0 hxw hy0 hyh

/-- Computation rule for set_position at a valid target on a well-formed
world. -/
theorem set_position_eq {s : GameState} {i : Nat} {c : Character} {x y : Int}
    (hc : s.chars.get? i = some c) (hWF : s.world.WF)
    (hv : is_valid_position s.world x y = true) :
    ∃ w2, s.world.setCell x y (some i) = some w2 ∧
      set_position s i x y = { world := w2, chars := s.chars.set i { c with x := x, y := y } } := by
  obtain ⟨hx0, hxw, hy0, hyh⟩ := is_valid_position_iff.mp hv
  obtain ⟨w2, hset, _⟩ := setCell_spec hWF (some i) hx0 hxw hy0 hyh
  refine ⟨w2, hset, ?_⟩
  simp [set_position, getElem?_of_get? hc, hv, hset]

/-- Placing a currently unplaced character on an empty valid cell keeps
the invariant. -/
theorem Inv_set_position_fresh {s : GameState} (hInv : Inv s) {i : Nat} {c : Character} {x y : Int}
    (hc : s.chars.get? i = some c)
    (hun : is_valid_position s.world c.x c.y = false)
    (hv : is_valid_position s.world x y = true)
    (hempty : cellAt s.world x y = none) :
    Inv (set_position s i x y) := by
  obtain ⟨hWF, hIds, hCon⟩ := hInv
  obtain ⟨hx0, hxw, hy0, hyh⟩ := is_valid_position_iff.mp hv
  obtain ⟨w2, hset, hw2w, hw2h, hw2WF, hcell, hother⟩ := setCell_spec hWF (some i) hx0 hxw hy0 hyh
  obtain ⟨w2', hset', heq⟩ := set_position_eq hc hWF hv
  rw [hset] at hset'
  cases hset'
  rw [heq]
  have hilen : i < s.chars.length := get?_some_lt hc
  refine ⟨hw2WF, ?_, ?_⟩
  · intro a b ha0 hb0 j hj
    simp only [List.length_set]
    by_cases hab : a = x ∧ b = y
    · obtain ⟨rfl, rfl⟩ := hab
      rw [hcell] at hj
      cases hj
      exact hilen
    · rw [hother a b ha0 hb0 hab] at hj
      exact hIds a b ha0 hb0 j hj
  · intro k ck hck a b ha0 haw hb0 hbh
    rw [hw2w] at haw
    rw [hw2h] at hbh
    by_cases hki : i = k
    · subst hki
      rw [get?_set_self _ hilen] at hck
      cases hck
      by_cases hab : a = x ∧ b = y
      · obtain ⟨rfl, rfl⟩ := hab
        simp [hcell]
      · rw [hother a b ha0 hb0 hab]
        constructor
        · intro hLHS
          have := (hCon i c hc a b ha0 haw hb0 hbh).mp hLHS
          have hvv : is_valid_position s.world c.x c.y = true := by
            rw [is_valid_position_iff]
            obtain ⟨h1, h2⟩ := this
            subst h1
            subst h2
            exact ⟨ha0, haw, hb0, hbh⟩
          rw [hvv] at hun
          cases hun
        · intro hRHS
          simp only at hRHS
          exact absurd (And.intro hRHS.1.symm hRHS.2.symm).symm (by tauto)
    · rw [List.get?_set_ne _ _ hki] at hck
      by_cases hab : a = x ∧ b = y
      · obtain ⟨rfl, rfl⟩ := hab
        rw [hcell]
        constructor
        · intro hLHS
          cases hLHS
          exact absurd rfl hki
        · intro hRHS
          have := (hCon k ck hck a b ha0 haw hb0 hbh).mpr hRHS
          rw [hempty] at this
          cases this
      · rw [hother a b ha0 hb0 hab]
        exact hCon k ck hck a b ha0 haw hb0 hbh

/-- Entity.remove on a missing character does nothing. -/
theorem remove_none {s : GameState} {i : Nat} (hc : s.chars.get? i = none) :
    remove s i = .ok s := by
  simp [remove, getElem?_of_get? hc]

/-- Entity.remove on an unplaced character does nothing. -/
theorem remove_noop {s : GameState} {i : Nat} {c : Character}
    (hc : s.chars.get? i = some c)
    (hun : is_valid_position s.world c.x c.y = false) :
    remove s i = .ok s := by
  simp [remove, getElem?_of_get? hc, hun]

/-- Computation rule for Entity.remove on a placed character of a
well-formed world. -/
theorem remove_eq {s : GameState} {i : Nat} {c : Character}
    (hc : s.chars.get? i = some c) (hWF : s.world.WF)
    (hval : is_valid_position s.world c.x c.y = true) :
    ∃ w2, s.world.setCell c.x c.y none = some w2 ∧
      remove s i = .ok { world := w2, chars := s.chars.set i { c with x := -1, y := -1 } } := by
  obtain ⟨hx0, hxw, hy0, hyh⟩ := is_valid_position_iff.mp hval
  obtain ⟨w2, hset, _⟩ := setCell_spec hWF none hx0 hxw hy0 hyh
  refine ⟨w2, hset, ?_⟩
  simp [remove, getElem?_of_get? hc, hval, hset]

/-- Entity.remove keeps the invariant. -/
theorem Inv_remove {s : GameState} (hInv : Inv s) {i : Nat} {s2 : GameState}
    (h : remove s i = .ok s2) : Inv s2 := by
  obtain ⟨hWF, hIds, hCon⟩ := hInv
  cases hc : s.chars.get? i with
  | none =>
    rw [remove_none hc] at h
    cases h
    exact ⟨hWF, hIds, hCon⟩
  | some c =>
    cases hval : is_valid_position s.world c.x c.y with
    | false =>
      rw [remove_noop hc hval] at h
      cases h
      exact ⟨hWF, hIds, hCon⟩
    | true =>
      obtain ⟨hx0, hxw, hy0, hyh⟩ := is_valid_position_iff.mp hval
      obtain ⟨w2, hset, hw2w, hw2h, hw2WF, hcell, hother⟩ := setCell_spec hWF none hx0 hxw hy0 hyh
      obtain ⟨w2', hset', heq⟩ := remove_eq hc hWF hval
      rw [hset] at hset'
      cases hset'
      rw [heq] at h
      cases h
      have hilen : i < s.chars.length := get?_some_lt hc
      have hown : cellAt s.world c.x c.y = some i :=
        (hCon i c hc c.x c.y hx0 hxw hy0 hyh).mpr ⟨rfl, rfl⟩
      refine ⟨hw2WF, ?_, ?_⟩
      · intro a b ha0 hb0 j hj
        simp only [List.length_set]
        by_cases hab : a = c.x ∧ b = c.y
        · obtain ⟨rfl, rfl⟩ := hab
          rw [hcell] at hj
          cases hj
        · rw [hother a b ha0 hb0 hab] at hj
          exact hIds a b ha0 hb0 j hj
      · intro k ck hck a b ha0 haw hb0 hbh
        rw [hw2w] at haw
        rw [hw2h] at hbh
        by_cases hki : i = k
        · subst hki
          rw [get?_set_self _ hilen] at hck
          cases hck
          simp only
          constructor
          · intro hLHS
            by_cases hab : a = c.x ∧ b = c.y
            · obtain ⟨rfl, rfl⟩ := hab
              rw [hcell] at hLHS
              cases hLHS
            · rw [hother a b ha0 hb0 hab] at hLHS
              exact absurd ((hCon i c hc a b ha0 haw hb0 hbh).mp hLHS) (by tauto)
          · intro hRHS
            omega
        · rw [List.get?_set_ne _ _ hki] at hck
          by_cases hab : a = c.x ∧ b = c.y
          · obtain ⟨rfl, rfl⟩ := hab
            rw [hcell]
            constructor
            · intro hLHS
              cases hLHS
            · intro hRHS
              have := (hCon k ck hck _ _ ha0 haw hb0 hbh).mpr hRHS
              rw [hown] at this
              cases this
              exact absurd rfl hki
          · rw [hother a b ha0 hb0 hab]
            exact hCon k ck hck a b ha0 haw hb0 hbh

/-- Computation rule for gain_health with a valid amount. -/
theorem gain_health_eq {s : GameState} {i : Nat} {c : Character} {amount : Int}
    (hc : s.chars.get? i = some c) (ha : 0 ≤ amount) :
    gain_health s i amount =
      .ok { s with chars := s.chars.set i { c with hit_points := c.hit_points + amount } } := by
  simp only [gain_health, List.get?_eq_getElem?, getElem?_of_get? hc]
  rw [if_neg (by omega)]

/-- gain_health raises on a negative amount. -/
theorem gain_health_err {s : GameState} {i : Nat} {c : Character} {amount : Int}
    (hc : s.chars.get? i = some c) (ha : amount < 0) :
    gain_health s i amount = .error .invalidAmount := by
  simp only [gain_health, List.get?_eq_getElem?, getElem?_of_get? hc]
  rw [if_pos ha]

/-- Computation rule for gain_protection with a valid amount. -/
theorem gain_protection_eq {s : GameState} {i : Nat} {c : Character} {amount : Int}
    (hc : s.chars.get? i = some c) (ha : 0 ≤ amount) :
    gain_protection s i amount =
      .ok { s with chars := s.chars.set i { c with protection := c.protection + amount } } := by
  simp only [gain_protection, List.get?_eq_getElem?, getElem?_of_get? hc]
  rw [if_neg (by omega)]

/-- gain_protection raises on a negative amount. -/
theorem gain_protection_err {s : GameState} {i : Nat} {c : Character} {amount : Int}
    (hc : s.chars.get? i = some c) (ha : amount < 0) :
    gain_protection s i amount = .error .invalidAmount := by
  simp only [gain_protection, List.get?_eq_getElem?, getElem?_of_get? hc]
  rw [if_pos ha]

/-- Computation rule for lose_protection with a valid amount. -/
theorem lose_protection_eq {s : GameState} {i : Nat} {c : Character} {d : Int}
    (hc : s.chars.get? i = some c) (hd : 0 ≤ d) :
    lose_protection s i d =
      .ok { s with chars := s.chars.set i { c with protection := max (c.protection - d) 0 } } := by
  simp only [lose_protection, List.get?_eq_getElem?, getElem?_of_get? hc]
  rw [if_neg (by omega)]

/-- lose_protection raises on a negative amount. -/
theorem lose_protection_err {s : GameState} {i : Nat} {c : Character} {d : Int}
    (hc : s.chars.get? i = some c) (hd : d < 0) :
    lose_protection s i d = .error .invalidAmount := by
  simp only [lose_protection, List.get?_eq_getElem?, getElem?_of_get? hc]
  rw [if_pos hd]

/-- lose_health raises on a negative amount. -/
theorem lose_health_err {s : GameState} {i : Nat} {c : Character} {d : Int}
    (hc : s.chars.get? i = some c) (hd : d < 0) :
    lose_health s i d = .error .invalidAmount := by
  simp only [lose_health, List.get?_eq_getElem?, getElem?_of_get? hc]
  rw [if_pos hd]

/-- lose_health when the clamped result is positive: only the hit points
change. -/
theorem lose_health_pos {s : GameState} {i : Nat} {c : Character} {d : Int}
    (hc : s.chars.get? i = some c) (hd : 0 ≤ d) (hpos : max (c.hit_points - d) 0 ≠ 0) :
    lose_health s i d =
      .ok { s with chars := s.chars.set i { c with hit_points := max (c.hit_points - d) 0 } } := by
  simp only [lose_health, List.get?_eq_getElem?, getElem?_of_get? hc]
  rw [if_neg (by omega), if_neg hpos]

/-- lose_health when the clamped result is zero: the character is also
removed from the map. -/
theorem lose_health_zero {s : GameState} {i : Nat} {c : Character} {d : Int}
    (hc : s.chars.get? i = some c) (hd : 0 ≤ d) (hz : max (c.hit_points - d) 0 = 0) :
    lose_health s i d =
      remove { s with chars := s.chars.set i { c with hit_points := max (c.hit_points - d) 0 } } i := by
  simp only [lose_health, List.get?_eq_getElem?, getElem?_of_get? hc]
  rw [if_neg (by omega), if_pos hz]

/-- lose_health on a missing character does nothing. -/
theorem lose_health_none {s : GameState} {i : Nat} {d : Int}
    (hc : s.chars.get? i = none) :
    lose_health s i d = .ok s := by
  simp only [lose_health, List.get?_eq_getElem?, getElem?_of_get? hc]

/-- gain_health keeps the invariant. -/
theorem Inv_gain_health {s : GameState} (hInv : Inv s) {i : Nat} {amount : Int} {s2 : GameState}
    (h : gain_health s i amount = .ok s2) : Inv s2 := by
  cases hc : s.chars.get? i with
  | none =>
    simp only [gain_health, List.get?_eq_getElem?, getElem?_of_get? hc] at h
    cases h
    exact hInv
  | some c =>
    by_cases ha : amount < 0
    · rw [gain_health_err hc ha] at h
      cases h
    · rw [gain_health_eq hc (by omega)] at h
      cases h
      exact Inv_set_samepos hInv hc rfl rfl

/-- gain_protection keeps the invariant. -/
theorem Inv_gain_protection {s : GameState} (hInv : Inv s) {i : Nat} {amount : Int} {s2 : GameState}
    (h : gain_protection s i amount = .ok s2) : Inv s2 := by
  cases hc : s.chars.get? i with
  | none =>
    simp only [gain_protection, List.get?_eq_getElem?, getElem?_of_get? hc] at h
    cases h
    exact hInv
  | some c =>
    by_cases ha : amount < 0
    · rw [gain_protection_err hc ha] at h
      cases h
    · rw [gain_protection_eq hc (by omega)] at h
      cases h
      exact Inv_set_samepos hInv hc rfl rfl

/-- lose_protection keeps the invariant. -/
theorem Inv_lose_protection {s : GameState} (hInv : Inv s) {i : Nat} {d : Int} {s2 : GameState}
    (h : lose_protection s i d = .ok s2) : Inv s2 := by
  cases hc : s.chars.get? i with
  | none =>
    simp only [lose_protection, List.get?_eq_getElem?, getElem?_of_get? hc] at h
    cases h
    exact hInv
  | some c =>
    by_cases ha : d < 0
    · rw [lose_protection_err hc ha] at h
      cases h
    · rw [lose_protection_eq hc (by omega)] at h
      cases h
      exact Inv_set_samepos hInv hc rfl rfl

/-- lose_health keeps the invariant, defeat removal included. -/
theorem Inv_lose_health {s : GameState} (hInv : Inv s) {i : Nat} {d : Int} {s2 : GameState}
    (h : lose_health s i d = .ok s2) : Inv s2 := by
  cases hc : s.chars.get? i with
  | none =>
    rw [lose_health_none hc] at h
    cases h
    exact hInv
  | some c =>
    by_cases ha : d < 0
    · rw [lose_health_err hc ha] at h
      cases h
    · have hmid : Inv { s with chars := s.chars.set i { c with hit_points := max (c.hit_points - d) 0 } } :=
        Inv_set_samepos hInv hc rfl rfl
      by_cases hz : max (c.hit_points - d) 0 = 0
      · rw [lose_health_zero hc (by omega) hz] at h
        exact Inv_remove hmid h
      · rw [lose_health_pos hc (by omega) hz] at h
        cases h
        exact hmid

/-- deal_damage keeps the invariant. -/
theorem Inv_deal_damage {s : GameState} (hInv : Inv s) {i j : Nat} {d : Int} {s2 : GameState}
    (h : deal_damage s i j d = .ok s2) : Inv s2 := by
  unfold deal_damage at h
  cases hi : s.chars.get? i with
  | none =>
    simp only [hi] at h
    cases h
    exact hInv
  | some a =>
    cases hj : s.chars.get? j with
    | none =>
      simp only [hi, hj] at h
      cases h
      exact hInv
    | some t =>
      simp only [hi, hj] at h
      by_cases hca : can_attack a t
      · rw [if_neg (not_not_intro hca)] at h
        by_cases hp : has_protection t
        · rw [if_neg (not_not_intro hp)] at h
          exact Inv_lose_protection hInv h
        · rw [if_pos hp] at h
          exact Inv_lose_health hInv h
      · rw [if_pos hca] at h
        cases h
        exact hInv

/-- The attack-loop inside cast_spell keeps the invariant. -/
theorem Inv_attack_loop {i j : Nat} : ∀ (n : Nat) (s : GameState), Inv s →
    ∀ s2, attack_loop s i j n = .ok s2 → Inv s2 := by
  intro n
  induction n with
  | zero =>
    intro s hInv s2 h
    cases h
    exact hInv
  | succ n ih =>
    intro s hInv s2 h
    unfold attack_loop at h
    cases hstep : attack s i j with
    | error e =>
      rw [hstep] at h
      cases h
    | ok s1 =>
      rw [hstep] at h
      exact ih s1 (Inv_deal_damage hInv hstep) s2 h

/-- The post-move hook keeps the invariant. -/
theorem Inv_on_move_complete {s : GameState} (hInv : Inv s) (i : Nat) :
    Inv (on_move_complete s i) := by
  cases hc : s.chars.get? i with
  | none =>
    simp only [on_move_complete, hc]
    exact hInv
  | some c =>
    cases hk : c.kind with
    | wizard =>
      simp only [on_move_complete, hc, hk]
      exact Inv_set_samepos hInv hc rfl rfl
    | base =>
      simp only [on_move_complete, hc, hk]
      exact hInv
    | enemy =>
      simp only [on_move_complete, hc, hk]
      exact hInv
    | archer =>
      simp only [on_move_complete, hc, hk]
      exact hInv

/-- Wrapped destinations are always in bounds on a well-formed world. -/
theorem dest_valid {w : WorldMap} (hWF : w.WF) (px py : Int) :
    is_valid_position w (px % w.width) (py % w.height) = true := by
  obtain ⟨hpos, hsq, _, _⟩ := hWF
  rw [is_valid_position_iff]
  have h1 : 0 < w.height := by omega
  exact ⟨Int.emod_nonneg _ (by omega), Int.emod_lt_of_pos _ hpos,
         Int.emod_nonneg _ (by omega), Int.emod_lt_of_pos _ h1⟩

/-- move on a missing character does nothing. -/
theorem move_missing {s : GameState} {i : Nat} {direction : String}
    (hc : s.chars.get? i = none) : move s i direction = .ok s := by
  simp only [move, List.get?_eq_getElem?, getElem?_of_get? hc]

/-- move with an unrecognized direction is caught and does nothing. -/
theorem move_bad_direction {s : GameState} {i : Nat} {direction : String}
    (hd : get_move_delta direction = none) : move s i direction = .ok s := by
  unfold move
  cases hc : s.chars.get? i with
  | none => rfl
  | some c => simp only [hd]

/-- move into an occupied destination does nothing. -/
theorem move_occupied {s : GameState} {i : Nat} {c : Character} {direction : String} {dx dy : Int}
    (hc : s.chars.get? i = some c)
    (hd : get_move_delta direction = some (dx, dy))
    (hocc : s.world.is_occupied ((c.x + dx) % s.world.width) ((c.y + dy) % s.world.height) = true) :
    move s i direction = .ok s := by
  simp only [move, List.get?_eq_getElem?, getElem?_of_get? hc, hd, hocc]
  rfl

/-- Closed form of the post-move hook. -/
theorem on_move_complete_eq (s : GameState) (i : Nat) {c : Character}
    (hc : s.chars.get? i = some c) :
    on_move_complete s i =
      if c.kind = CKind.wizard
      then { s with chars := s.chars.set i { c with mana := c.mana + 1 } }
      else s := by
  simp only [on_move_complete, hc]
  cases hk : c.kind with
  | wizard => simp
  | base => simp
  | enemy => simp
  | archer => simp

/-- A successful move of a placed character onto a free destination:
full characterization of the result state. -/
theorem move_free_spec {s : GameState} (hInv : Inv s) {i : Nat} {c : Character}
    {direction : String} {dx dy : Int}
    (hc : s.chars.get? i = some c)
    (hval : is_valid_position s.world c.x c.y = true)
    (hd : get_move_delta direction = some (dx, dy))
    (hocc : s.world.is_occupied ((c.x + dx) % s.world.width) ((c.y + dy) % s.world.height) = false) :
    ∃ s2, move s i direction = .ok s2 ∧ Inv s2 ∧
      (∃ c2, s2.chars.get? i = some c2 ∧
        c2.x = (c.x + dx) % s.world.width ∧ c2.y = (c.y + dy) % s.world.height ∧
        c2.hit_points = c.hit_points ∧ c2.protection = c.protection ∧ c2.kind = c.kind ∧
        c2.mana = c.mana + (if c.kind = CKind.wizard then 1 else 0)) ∧
      cellAt s2.world ((c.x + dx) % s.world.width) ((c.y + dy) % s.world.height) = some i ∧
      cellAt s2.world c.x c.y = none := by
  obtain ⟨hWF, hIds, hCon⟩ := hInv
  set nx := (c.x + dx) % s.world.width with hnx
  set ny := (c.y + dy) % s.world.height with hny
  obtain ⟨hcx0, hcxw, hcy0, hcyh⟩ := is_valid_position_iff.mp hval
  have hown : cellAt s.world c.x c.y = some i :=
    (hCon i c hc c.x c.y hcx0 hcxw hcy0 hcyh).mpr ⟨rfl, rfl⟩
  have hdval : is_valid_position s.world nx ny = true := dest_valid hWF _ _
  obtain ⟨hnx0, hnxw, hny0, hnyh⟩ := is_valid_position_iff.mp hdval
  have hempty : cellAt s.world nx ny = none := by
    have := is_occupied_inb hWF hnx0 hnxw hny0 hnyh
    rw [hocc] at this
    cases hcell : cellAt s.world nx ny with
    | none => rfl
    | some j =>
      rw [hcell] at this
      cases this
  have hne : ¬ (nx = c.x ∧ ny = c.y) := by
    intro hcontra
    obtain ⟨h1, h2⟩ := hcontra
    rw [← h1, ← h2, hempty] at hown
    cases hown
  obtain ⟨w2, hset2, hrm⟩ := remove_eq hc hWF hval
  obtain ⟨w2', hset2', hw2w, hw2h, hw2WF, hcell2, hother2⟩ :=
    setCell_spec hWF none hcx0 hcxw hcy0 hcyh
  rw [hset2] at hset2'
  cases hset2'
  set s3 : GameState :=
    { world := w2, chars := s.chars.set i { c with x := -1, y := -1 } } with hs3
  have hInv3 : Inv s3 := Inv_remove ⟨hWF, hIds, hCon⟩ hrm
  have hilen : i < s.chars.length := get?_some_lt hc
  have hc3 : s3.chars.get? i = some { c with x := -1, y := -1 } := get?_set_self _ hilen
  have hun3 : is_valid_position s3.world (-1 : Int) (-1 : Int) = false := by
    simp [is_valid_position]
  have hdval3 : is_valid_position s3.world nx ny = true := by
    rw [is_valid_position_iff]
    simp only [hs3]
    rw [hw2w, hw2h]
    exact ⟨hnx0, hnxw, hny0, hnyh⟩
  have hempty3 : cellAt s3.world nx ny = none := by
    simp only [hs3]
    rw [hother2 nx ny hnx0 hny0 hne]
    exact hempty
  have hInv4 : Inv (set_position s3 i nx ny) :=
    Inv_set_position_fresh hInv3 hc3 hun3 hdval3 hempty3
  obtain ⟨w3, hset3, hsp⟩ := set_position_eq hc3 hInv3.1 hdval3
  simp only at hsp
  obtain ⟨w3q, hset3q, hw3w, hw3h, hw3WF, hcell3, hother3⟩ :=
    setCell_spec hInv3.1 (some i) hnx0
      (by simp only [hs3]; rw [hw2w]; exact hnxw) hny0
      (by simp only [hs3]; rw [hw2h]; exact hnyh)
  rw [hset3] at hset3q
  cases hset3q
  have hlen3 : i < s3.chars.length := by
    simp only [hs3]
    simpa [List.length_set] using hilen
  have hc4 : (s3.chars.set i { c with x := nx, y := ny }).get? i
      = some { c with x := nx, y := ny } := get?_set_self _ hlen3
  have hlen4 : i < (s3.chars.set i { c with x := nx, y := ny }).length := by
    simpa [List.length_set] using hlen3
  have hmove : move s i direction = .ok (on_move_complete (set_position s3 i nx ny) i) := by
    simp only [move, List.get?_eq_getElem?, getElem?_of_get? hc, hd, hocc, hrm]
    rfl
  have homc := on_move_complete_eq
    { world := w3, chars := s3.chars.set i { c with x := nx, y := ny } } i hc4
  simp only at homc
  refine ⟨on_move_complete (set_position s3 i nx ny) i, hmove,
    Inv_on_move_complete hInv4 i, ?_, ?_, ?_⟩
  · rw [hsp, homc]
    by_cases hk : c.kind = CKind.wizard
    · rw [if_pos hk]
      refine ⟨{ c with x := nx, y := ny, mana := c.mana + 1 }, ?_, rfl, rfl, rfl, rfl, rfl, ?_⟩
      · exact get?_set_self _ hlen4
      · rw [if_pos hk]
    · rw [if_neg hk]
      refine ⟨{ c with x := nx, y := ny }, hc4, rfl, rfl, rfl, rfl, rfl, ?_⟩
      rw [if_neg hk]
      simp
  · rw [hsp, homc]
    by_cases hk : c.kind = CKind.wizard
    · rw [if_pos hk]
      exact hcell3
    · rw [if_neg hk]
      exact hcell3
  · rw [hsp, homc]
    have hne2 : ¬ (c.x = nx ∧ c.y = ny) := by
      intro hcontra
      exact hne ⟨hcontra.1.symm, hcontra.2.symm⟩
    have hw3cell : cellAt w3 c.x c.y = none := by
      rw [hother3 c.x c.y hcx0 hcy0 hne2]
      simp only [hs3]
      exact hcell2
    by_cases hk : c.kind = CKind.wizard
    · rw [if_pos hk]
      exact hw3cell
    · rw [if_neg hk]
      exact hw3cell

/-- Character.move keeps the invariant in every case. -/
theorem Inv_move {s : GameState} (hInv : Inv s) {i : Nat} {direction : String} {s2 : GameState}
    (h : move s i direction = .ok s2) : Inv s2 := by
  cases hc : s.chars.get? i with
  | none =>
    rw [move_missing hc] at h
    cases h
    exact hInv
  | some c =>
    cases hd : get_move_delta direction with
    | none =>
      rw [move_bad_direction hd] at h
      cases h
      exact hInv
    | some d =>
      obtain ⟨dx, dy⟩ := d
      cases hocc : s.world.is_occupied ((c.x + dx) % s.world.width)
          ((c.y + dy) % s.world.height) with
      | true =>
        rw [move_occupied hc hd hocc] at h
        cases h
        exact hInv
      | false =>
        cases hval : is_valid_position s.world c.x c.y with
        | true =>
          obtain ⟨s3, hmv, hInv3, _⟩ := move_free_spec hInv hc hval hd hocc
          rw [hmv] at h
          cases h
          exact hInv3
        | false =>
          have hrm : remove s i = .ok s := remove_noop hc hval
          have hmove : move s i direction = .ok (on_move_complete (set_position s i
              ((c.x + dx) % s.world.width) ((c.y + dy) % s.world.height)) i) := by
            simp only [move, List.get?_eq_getElem?, getElem?_of_get? hc, hd, hocc, hrm]
            rfl
          rw [hmove] at h
          cases h
          have hdval : is_valid_position s.world ((c.x + dx) % s.world.width)
              ((c.y + dy) % s.world.height) = true := dest_valid hInv.1 _ _
          obtain ⟨hnx0, hnxw, hny0, hnyh⟩ := is_valid_position_iff.mp hdval
          have hempty : cellAt s.world ((c.x + dx) % s.world.width)
              ((c.y + dy) % s.world.height) = none := by
            have := is_occupied_inb hInv.1 hnx0 hnxw hny0 hnyh
            rw [hocc] at this
            cases hcell : cellAt s.world ((c.x + dx) % s.world.width)
                ((c.y + dy) % s.world.height) with
            | none => rfl
            | some j =>
              rw [hcell] at this
              cases this
          exact Inv_on_move_complete
            (Inv_set_position_fresh hInv hc hval hdval hempty) i

theorem set_concat_length {α : Type} (l : List α) (a b : α) :
    (l ++ [a]).set l.length b = l ++ [b] := by
  induction l with
  | nil => rfl
  | cons x xs ih => simpa using ih

/-- updateChar keeps the invariant when the edit preserves coordinates. -/
theorem Inv_updateChar {s : GameState} (hInv : Inv s) (i : Nat) (f : Character → Character)
    (hf : ∀ c, (f c).x = c.x ∧ (f c).y = c.y) : Inv (updateChar s i f) := by
  cases hc : s.chars.get? i with
  | none =>
    simp only [updateChar, hc]
    exact hInv
  | some c =>
    simp only [updateChar, hc]
    exact Inv_set_samepos hInv hc (hf c).1 (hf c).2

/-- Appending an unplaced character keeps the invariant. -/
theorem Inv_append {s : GameState} (hInv : Inv s) {c0 : Character}
    (hx : c0.x = -1) (hy : c0.y = -1) :
    Inv { s with chars := s.chars ++ [c0] } := by
  obtain ⟨hWF, hIds, hCon⟩ := hInv
  refine ⟨hWF, ?_, ?_⟩
  · intro a b ha hb j hj
    have := hIds a b ha hb j hj
    simp only [List.length_append, List.length_cons, List.length_nil]
    omega
  · intro k ck hck a b ha haw hb hbh
    by_cases hk : k < s.chars.length
    · rw [List.get?_append hk] at hck
      exact hCon k ck hck a b ha haw hb hbh
    · by_cases hkl : k = s.chars.length
      · subst hkl
        rw [List.get?_concat_length] at hck
        cases hck
        constructor
        · intro hcell
          exact absurd (hIds a b ha hb _ hcell) (by omega)
        · intro hpos
          obtain ⟨h1, h2⟩ := hpos
          rw [hx] at h1
          omega
      · have hnone : (s.chars ++ [c0]).get? k = none := by
          rw [List.get?_eq_none]
          simp only [List.length_append, List.length_cons, List.length_nil]
          omega
        rw [hnone] at hck
        cases hck

/-- Entity construction keeps the invariant in every branch, validation
failures included. -/
theorem Inv_construct {s : GameState} (hInv : Inv s) (kind : CKind) (x y hp mana : Int) :
    Inv (construct s kind x y hp mana).1 := by
  have hInv0 : Inv { s with chars := s.chars ++
      [{ x := -1, y := -1, hit_points := 0, protection := 0, mana := 0, items := [],
         kind := kind }] } := Inv_append hInv rfl rfl
  have hc0get : ({ s with chars := s.chars ++
      [{ x := -1, y := -1, hit_points := 0, protection := 0, mana := 0, items := [],
         kind := kind }] } : GameState).chars.get? s.chars.length =
      some { x := -1, y := -1, hit_points := 0, protection := 0, mana := 0, items := [],
             kind := kind } := List.get?_concat_length _ _
  have hInvS1 : Inv (if ¬ is_valid_position s.world x y then
      { s with chars := s.chars ++
        [{ x := -1, y := -1, hit_points := 0, protection := 0, mana := 0, items := [],
           kind := kind }] }
      else if ({ s with chars := s.chars ++
        [{ x := -1, y := -1, hit_points := 0, protection := 0, mana := 0, items := [],
           kind := kind }] } : GameState).world.is_occupied x y then
      { s with chars := s.chars ++
        [{ x := -1, y := -1, hit_points := 0, protection := 0, mana := 0, items := [],
           kind := kind }] }
      else set_position { s with chars := s.chars ++
        [{ x := -1, y := -1, hit_points := 0, protection := 0, mana := 0, items := [],
           kind := kind }] } s.chars.length x y) := by
    by_cases hv : is_valid_position s.world x y = true
    · rw [if_neg (not_not_intro hv)]
      by_cases hocc : s.world.is_occupied x y = true
      · rw [if_pos hocc]
        exact hInv0
      · rw [if_neg hocc]
        have hbool : s.world.is_occupied x y = false := by
          cases hb : s.world.is_occupied x y with
          | true => exact absurd hb hocc
          | false => rfl
        obtain ⟨hx0, hxw, hy0, hyh⟩ := is_valid_position_iff.mp hv
        have hempty : cellAt s.world x y = none := by
          have := is_occupied_inb hInv.1 hx0 hxw hy0 hyh
          rw [hbool] at this
          cases hcell : cellAt s.world x y with
          | none => rfl
          | some j =>
            rw [hcell] at this
            cases this
        exact Inv_set_position_fresh hInv0 hc0get rfl hv hempty
    · rw [if_pos hv]
      exact hInv0
  simp only [construct]
  by_cases hhp : hp < 0
  · rw [if_pos hhp]
    exact hInvS1
  · rw [if_neg hhp]
    have hInv2 := Inv_updateChar hInvS1 s.chars.length
      (fun c => { c with hit_points := hp, protection := 0, items := [] })
      (fun c => ⟨rfl, rfl⟩)
    by_cases hkw : kind = CKind.wizard ∧ mana < 0
    · rw [if_pos hkw]
      exact hInv2
    · rw [if_neg hkw]
      by_cases hw : kind = CKind.wizard
      · rw [if_pos hw]
        exact Inv_updateChar hInv2 s.chars.length (fun c => { c with mana := mana })
          (fun c => ⟨rfl, rfl⟩)
      · rw [if_neg hw]
        exact hInv2

/-- deal_damage is a no-op when the melee check fails. -/
theorem deal_damage_out_of_range {s : GameState} {i j : Nat} {a t : Character} {d : Int}
    (hi : s.chars.get? i = some a) (hj : s.chars.get? j = some t)
    (hca : can_attack a t = false) :
    deal_damage s i j d = .ok s := by
  simp only [deal_damage, hi, hj, hca]
  rfl

/-- deal_damage against a protected target reduces protection only. -/
theorem deal_damage_protection {s : GameState} {i j : Nat} {a t : Character} {d : Int}
    (hi : s.chars.get? i = some a) (hj : s.chars.get? j = some t)
    (hca : can_attack a t = true) (hp : 0 < t.protection) (hd : 0 ≤ d) :
    deal_damage s i j d =
      .ok { s with chars := s.chars.set j { t with protection := max (t.protection - d) 0 } } := by
  have hprot : has_protection t = true := by
    simp only [has_protection, decide_eq_true_eq]
    omega
  simp only [deal_damage, hi, hj]
  rw [if_neg (not_not_intro hca), if_neg (not_not_intro hprot)]
  exact lose_protection_eq hj hd

/-- deal_damage against an unprotected target goes through lose_health. -/
theorem deal_damage_health {s : GameState} {i j : Nat} {a t : Character} {d : Int}
    (hi : s.chars.get? i = some a) (hj : s.chars.get? j = some t)
    (hca : can_attack a t = true) (hp : t.protection = 0) :
    deal_damage s i j d = lose_health s j d := by
  have hprot : ¬ (has_protection t = true) := by
    simp only [has_protection, decide_eq_true_eq]
    omega
  simp only [deal_damage, hi, hj]
  rw [if_neg (not_not_intro hca), if_pos hprot]

/-- remove never raises on a well-formed world, and the world stays
well-formed. -/
theorem remove_ok (s : GameState) (hWF : s.world.WF) (i : Nat) :
    ∃ s2, remove s i = .ok s2 ∧ s2.world.WF := by
  cases hc : s.chars.get? i with
  | none => exact ⟨s, remove_none hc, hWF⟩
  | some c =>
    cases hval : is_valid_position s.world c.x c.y with
    | false => exact ⟨s, remove_noop hc hval, hWF⟩
    | true =>
      obtain ⟨hx0, hxw, hy0, hyh⟩ := is_valid_position_iff.mp hval
      obtain ⟨w2, hset, hw2w, hw2h, hw2WF, _, _⟩ := setCell_spec hWF none hx0 hxw hy0 hyh
      obtain ⟨w2q, hsetq, heq⟩ := remove_eq hc hWF hval
      rw [hset] at hsetq
      cases hsetq
      exact ⟨_, heq, hw2WF⟩

/-- lose_health with a valid amount never raises on a well-formed world. -/
theorem lose_health_ok {s : GameState} (hWF : s.world.WF) {i : Nat} {d : Int} (hd : 0 ≤ d) :
    ∃ s2, lose_health s i d = .ok s2 ∧ s2.world.WF := by
  cases hc : s.chars.get? i with
  | none => exact ⟨s, lose_health_none hc, hWF⟩
  | some c =>
    by_cases hz : max (c.hit_points - d) 0 = 0
    · rw [lose_health_zero hc hd hz]
      exact remove_ok
        { s with chars := s.chars.set i { c with hit_points := max (c.hit_points - d) 0 } } hWF i
    · rw [lose_health_pos hc hd hz]
      exact ⟨_, rfl, hWF⟩

/-- deal_damage with a valid amount never raises on a well-formed world. -/
theorem deal_damage_ok {s : GameState} (hWF : s.world.WF) (i j : Nat) (d : Int) (hd : 0 ≤ d) :
    ∃ s2, deal_damage s i j d = .ok s2 ∧ s2.world.WF := by
  cases hi : s.chars.get? i with
  | none =>
    refine ⟨s, ?_, hWF⟩
    simp only [deal_damage, hi]
  | some a =>
    cases hj : s.chars.get? j with
    | none =>
      refine ⟨s, ?_, hWF⟩
      simp only [deal_damage, hi, hj]
    | some t =>
      cases hca : can_attack a t with
      | false => exact ⟨s, deal_damage_out_of_range hi hj hca, hWF⟩
      | true =>
        by_cases hp : 0 < t.protection
        · rw [deal_damage_protection hi hj hca hp hd]
          exact ⟨_, rfl, hWF⟩
        · have hp0 : t.protection = 0 ∨ t.protection < 0 := by omega
          rcases hp0 with hp0 | hp0
          · rw [deal_damage_health hi hj hca hp0]
            exact lose_health_ok hWF hd
          · have hprot : ¬ (has_protection t = true) := by
              simp only [has_protection, decide_eq_true_eq]
              omega
            simp only [deal_damage, hi, hj]
            rw [if_neg (not_not_intro hca), if_pos hprot]
            exact lose_health_ok hWF hd

/-- The spell attack loop never raises on a well-formed world. -/
theorem attack_loop_ok {i j : Nat} : ∀ (n : Nat) (s : GameState), s.world.WF →
    ∃ s2, attack_loop s i j n = .ok s2 ∧ s2.world.WF := by
  intro n
  induction n with
  | zero => exact fun s hWF => ⟨s, rfl, hWF⟩
  | succ n ih =>
    intro s hWF
    obtain ⟨s1, hstep, hWF1⟩ := deal_damage_ok hWF i j 10 (by omega)
    obtain ⟨s2, hloop, hWF2⟩ := ih s1 hWF1
    refine ⟨s2, ?_, hWF2⟩
    have hstep2 : attack s i j = .ok s1 := hstep
    simp only [attack_loop, hstep2]
    exact hloop

/-- remove does not touch other characters. -/
theorem remove_frame {s : GameState} {i : Nat} {s2 : GameState}
    (h : remove s i = .ok s2) : ∀ k, k ≠ i → s2.chars.get? k = s.chars.get? k := by
  intro k hk
  cases hc : s.chars.get? i with
  | none =>
    rw [remove_none hc] at h
    cases h
    rfl
  | some c =>
    cases hval : is_valid_position s.world c.x c.y with
    | false =>
      rw [remove_noop hc hval] at h
      cases h
      rfl
    | true =>
      simp only [remove, List.get?_eq_getElem?, getElem?_of_get? hc, hval] at h
      cases hcell : s.world.setCell c.x c.y none with
      | none =>
        rw [hcell] at h
        cases h
      | some w2 =>
        rw [hcell] at h
        cases h
        exact List.get?_set_ne _ _ (fun he => hk he.symm)

/-- lose_health does not touch other characters. -/
theorem lose_health_frame {s : GameState} {i : Nat} {d : Int} {s2 : GameState}
    (h : lose_health s i d = .ok s2) : ∀ k, k ≠ i → s2.chars.get? k = s.chars.get? k := by
  intro k hk
  cases hc : s.chars.get? i with
  | none =>
    rw [lose_health_none hc] at h
    cases h
    rfl
  | some c =>
    by_cases hd : d < 0
    · rw [lose_health_err hc hd] at h
      cases h
    · by_cases hz : max (c.hit_points - d) 0 = 0
      · rw [lose_health_zero hc (by omega) hz] at h
        have := remove_frame h k hk
        rw [this]
        exact List.get?_set_ne _ _ (fun he => hk he.symm)
      · rw [lose_health_pos hc (by omega) hz] at h
        cases h
        exact List.get?_set_ne _ _ (fun he => hk he.symm)

/-- lose_protection does not touch other characters. -/
theorem lose_protection_frame {s : GameState} {i : Nat} {d : Int} {s2 : GameState}
    (h : lose_protection s i d = .ok s2) : ∀ k, k ≠ i → s2.chars.get? k = s.chars.get? k := by
  intro k hk
  cases hc : s.chars.get? i with
  | none =>
    simp only [lose_protection, List.get?_eq_getElem?, getElem?_of_get? hc] at h
    cases h
    rfl
  | some c =>
    by_cases hd : d < 0
    · rw [lose_protection_err hc hd] at h
      cases h
    · rw [lose_protection_eq hc (by omega)] at h
      cases h
      exact List.get?_set_ne _ _ (fun he => hk he.symm)

/-- deal_damage modifies only the target. -/
theorem deal_damage_frame {s : GameState} {i j : Nat} {d : Int} {s2 : GameState}
    (h : deal_damage s i j d = .ok s2) : ∀ k, k ≠ j → s2.chars.get? k = s.chars.get? k := by
  intro k hk
  cases hi : s.chars.get? i with
  | none =>
    simp only [deal_damage, hi] at h
    cases h
    rfl
  | some a =>
    cases hj : s.chars.get? j with
    | none =>
      simp only [deal_damage, hi, hj] at h
      cases h
      rfl
    | some t =>
      simp only [deal_damage, hi, hj] at h
      by_cases hca : can_attack a t = true
      · rw [if_neg (not_not_intro hca)] at h
        by_cases hp : has_protection t = true
        · rw [if_neg (not_not_intro hp)] at h
          exact lose_protection_frame h k hk
        · rw [if_pos hp] at h
          exact lose_health_frame h k hk
      · rw [if_pos hca] at h
        cases h
        rfl

/-- The spell attack loop only modifies the target. -/
theorem attack_loop_frame {i j : Nat} : ∀ (n : Nat) (s : GameState) (s2 : GameState),
    attack_loop s i j n = .ok s2 → ∀ k, k ≠ j → s2.chars.get? k = s.chars.get? k := by
  intro n
  induction n with
  | zero =>
    intro s s2 h k hk
    cases h
    rfl
  | succ n ih =>
    intro s s2 h k hk
    unfold attack_loop at h
    cases hstep : attack s i j with
    | error e =>
      rw [hstep] at h
      cases h
    | ok s1 =>
      rw [hstep] at h
      rw [ih s1 s2 h k hk]
      exact deal_damage_frame hstep k hk

/-- cast_spell without enough mana is a no-op. -/
theorem cast_spell_no_mana {s : GameState} {i j : Nat} {w t : Character} {n : Nat}
    (hi : s.chars.get? i = some w) (hj : s.chars.get? j = some t)
    (hm : w.mana < 5) : cast_spell s i j n = .ok s := by
  simp only [cast_spell, hi, hj]
  rw [if_pos hm]

/-- cast_spell out of melee range is a no-op. -/
theorem cast_spell_out_of_range {s : GameState} {i j : Nat} {w t : Character} {n : Nat}
    (hi : s.chars.get? i = some w) (hj : s.chars.get? j = some t)
    (hm : ¬ w.mana < 5) (hca : can_attack w t = false) : cast_spell s i j n = .ok s := by
  simp only [cast_spell, hi, hj]
  rw [if_neg hm, if_pos (by simp [hca])]

/-- cast_spell with mana and range: deduct 5 mana, then run the attack
loop. -/
theorem cast_spell_active {s : GameState} {i j : Nat} {w t : Character} {n : Nat}
    (hi : s.chars.get? i = some w) (hj : s.chars.get? j = some t)
    (hm : ¬ w.mana < 5) (hca : can_attack w t = true) :
    cast_spell s i j n =
      attack_loop { s with chars := s.chars.set i { w with mana := w.mana - 5 } } i j n := by
  simp only [cast_spell, hi, hj]
  rw [if_neg hm, if_neg (not_not_intro hca)]

/-- heal without enough mana is a no-op. -/
theorem heal_no_mana {s : GameState} {i : Nat} (j : Nat) {w : Character}
    (hi : s.chars.get? i = some w) (hm : w.mana < 5) : heal s i j = .ok s := by
  simp only [heal, List.get?_eq_getElem?, getElem?_of_get? hi]
  rw [if_pos hm]

/-- heal with enough mana: deduct 5 mana, then the target gains 15 hit
points. -/
theorem heal_active {s : GameState} {i : Nat} (j : Nat) {w : Character}
    (hi : s.chars.get? i = some w) (hm : ¬ w.mana < 5) :
    heal s i j =
      gain_health { s with chars := s.chars.set i { w with mana := w.mana - 5 } } j 15 := by
  simp only [heal, List.get?_eq_getElem?, getElem?_of_get? hi]
  rw [if_neg hm]

/-- range_attack outside the ranged gate is a no-op. -/
theorem range_attack_out_of_gate {s : GameState} {i j : Nat} {a t : Character}
    (hi : s.chars.get? i = some a) (hj : s.chars.get? j = some t)
    (hgate : ¬ ((distance a t).1 ≤ 5 ∧ (distance a t).2 = 0)) :
    range_attack s i j = .ok s := by
  simp only [range_attack, hi, hj]
  rw [if_neg hgate]

/-- range_attack inside the ranged gate delegates to deal_damage with 5
base damage. -/
theorem range_attack_in_gate {s : GameState} {i j : Nat} {a t : Character}
    (hi : s.chars.get? i = some a) (hj : s.chars.get? j = some t)
    (hgate : (distance a t).1 ≤ 5 ∧ (distance a t).2 = 0) :
    range_attack s i j = deal_damage s i j 5 := by
  simp only [range_attack, hi, hj]
  rw [if_pos hgate]

/-- range_attack keeps the invariant. -/
theorem Inv_range_attack {s : GameState} (hInv : Inv s) {i j : Nat} {s2 : GameState}
    (h : range_attack s i j = .ok s2) : Inv s2 := by
  cases hi : s.chars.get? i with
  | none =>
    simp only [range_attack, hi] at h
    cases h
    exact hInv
  | some a =>
    cases hj : s.chars.get? j with
    | none =>
      simp only [range_attack, hi, hj] at h
      cases h
      exact hInv
    | some t =>
      by_cases hgate : (distance a t).1 ≤ 5 ∧ (distance a t).2 = 0
      · rw [range_attack_in_gate hi hj hgate] at h
        exact Inv_deal_damage hInv h
      · rw [range_attack_out_of_gate hi hj hgate] at h
        cases h
        exact hInv

/-- cast_spell keeps the invariant. -/
theorem Inv_cast_spell {s : GameState} (hInv : Inv s) {i j : Nat} {n : Nat} {s2 : GameState}
    (h : cast_spell s i j n = .ok s2) : Inv s2 := by
  cases hi : s.chars.get? i with
  | none =>
    simp only [cast_spell, hi] at h
    cases h
    exact hInv
  | some w =>
    cases hj : s.chars.get? j with
    | none =>
      simp only [cast_spell, hi, hj] at h
      cases h
      exact hInv
    | some t =>
      by_cases hm : w.mana < 5
      · rw [cast_spell_no_mana hi hj hm] at h
        cases h
        exact hInv
      · cases hca : can_attack w t with
        | false =>
          rw [cast_spell_out_of_range hi hj hm hca] at h
          cases h
          exact hInv
        | true =>
          rw [cast_spell_active hi hj hm hca] at h
          have hmid : Inv { s with chars := s.chars.set i { w with mana := w.mana - 5 } } :=
            Inv_set_samepos hInv hi rfl rfl
          exact Inv_attack_loop n _ hmid s2 h

/-- heal keeps the invariant. -/
theorem Inv_heal {s : GameState} (hInv : Inv s) {i j : Nat} {s2 : GameState}
    (h : heal s i j = .ok s2) : Inv s2 := by
  cases hi : s.chars.get? i with
  | none =>
    simp only [heal, List.get?_eq_getElem?, getElem?_of_get? hi] at h
    cases h
    exact hInv
  | some w =>
    by_cases hm : w.mana < 5
    · rw [heal_no_mana j hi hm] at h
      cases h
      exact hInv
    · rw [heal_active j hi hm] at h
      have hmid : Inv { s with chars := s.chars.set i { w with mana := w.mana - 5 } } :=
        Inv_set_samepos hInv hi rfl rfl
      exact Inv_gain_health hmid h

/-- attack keeps the invariant. -/
theorem Inv_attack {s : GameState} (hInv : Inv s) {i j : Nat} {s2 : GameState}
    (h : attack s i j = .ok s2) : Inv s2 :=
  Inv_deal_damage hInv h

/-- power_attack keeps the invariant. -/
theorem Inv_power_attack {s : GameState} (hInv : Inv s) {i j : Nat} {s2 : GameState}
    (h : power_attack s i j = .ok s2) : Inv s2 :=
  Inv_deal_damage hInv h

/-- A fresh empty square world satisfies the invariant. -/
theorem Inv_freshState (n : Nat) (hn : 0 < n) : Inv (freshState n) := by
  have hcell : ∀ x y : Int, cellAt (freshState n).world x y = none := by
    intro x y
    by_cases hx : x.toNat < n
    · by_cases hy : y.toNat < n
      · simp [cellAt, freshState, emptyMap, List.get?_eq_getElem?, List.getElem?_replicate, hx, hy]
      · simp [cellAt, freshState, emptyMap, List.get?_eq_getElem?, List.getElem?_replicate, hx, hy]
    · simp [cellAt, freshState, emptyMap, List.get?_eq_getElem?, List.getElem?_replicate, hx]
  refine ⟨⟨?_, ?_, ?_, ?_⟩, ?_, ?_⟩
  · simp only [freshState, emptyMap]
    exact_mod_cast hn
  · rfl
  · simp [freshState, emptyMap]
  · intro k row hrow
    simp only [freshState, emptyMap, List.get?_eq_getElem?, List.getElem?_replicate] at hrow
    by_cases hk : k < n
    · rw [if_pos hk] at hrow
      cases hrow
      simp [freshState, emptyMap]
    · rw [if_neg hk] at hrow
      cases hrow
  · intro x y hx hy j hj
    rw [hcell] at hj
    cases hj
  · intro k ck hck x y hx0 hxw hy0 hyh
    have hnone : (freshState n).chars.get? k = none := by
      simp [freshState]
    rw [hnone] at hck
    cases hck

/-- The hit-point and mana assignment chain at the end of construction. -/
theorem construct_updates (s1 : GameState) (i : Nat) (c1 : Character) (kind : CKind)
    (hp mana : Int) (hc1 : s1.chars.get? i = some c1) :
    (if kind = CKind.wizard
       then updateChar (updateChar s1 i
              (fun c => { c with hit_points := hp, protection := 0, items := [] })) i
              (fun c => { c with mana := mana })
       else updateChar s1 i
              (fun c => { c with hit_points := hp, protection := 0, items := [] })) =
    { s1 with chars := (s1.chars.set i
        { c1 with hit_points := hp, protection := 0,
                  mana := if kind = CKind.wizard then mana else c1.mana, items := [] }) } := by
  have hilen : i < s1.chars.length := get?_some_lt hc1
  have h2 : (s1.chars.set i
      ({ c1 with hit_points := hp, protection := 0, items := [] })).get? i =
      some { c1 with hit_points := hp, protection := 0, items := [] } :=
    get?_set_self _ (by simpa [List.length_set] using hilen)
  by_cases hw : kind = CKind.wizard
  · rw [if_pos hw]
    simp only [updateChar, hc1, h2, List.set_set]
    simp [hw]
  · rw [if_neg hw]
    simp only [updateChar, hc1]
    simp [hw]

/-- Construction at a rejected cell (out of bounds or occupied), with
valid hit points and mana: the character is appended unplaced at the
(-1, -1) sentinel and the world grid is untouched. -/
theorem construct_unplaced {s : GameState} {kind : CKind} {x y hp mana : Int}
    (hbad : is_valid_position s.world x y = false ∨ s.world.is_occupied x y = true)
    (hhp : 0 ≤ hp) (hm : kind = CKind.wizard → 0 ≤ mana) :
    construct s kind x y hp mana =
      ({ s with chars := s.chars ++
          [{ x := -1, y := -1, hit_points := hp, protection := 0,
             mana := if kind = CKind.wizard then mana else 0, items := [], kind := kind }] },
       .ok s.chars.length) := by
  have hc0 : ({ s with chars := s.chars ++
      [({ x := -1, y := -1, hit_points := 0, protection := 0, mana := 0, items := [],
          kind := kind } : Character)] } : GameState).chars.get? s.chars.length = some
      { x := -1, y := -1, hit_points := 0, protection := 0, mana := 0, items := [],
        kind := kind } := List.get?_concat_length _ _
  have hkwm : ¬ (kind = CKind.wizard ∧ mana < 0) := by
    intro hcontra
    have := hm hcontra.1
    omega
  have htail := construct_updates
    { s with chars := s.chars ++
      [{ x := -1, y := -1, hit_points := 0, protection := 0, mana := 0, items := [],
         kind := kind }] } s.chars.length
    { x := -1, y := -1, hit_points := 0, protection := 0, mana := 0, items := [], kind := kind }
    kind hp mana hc0
  have hhp2 : ¬ (hp < 0) := by omega
  simp only [construct]
  rcases hbad with hbad | hbad
  · have hcond1 : ¬ (is_valid_position s.world x y = true) := by simp [hbad]
    rw [if_pos hcond1, if_neg hhp2, if_neg hkwm, htail]
    simp [set_concat_length]
  · by_cases hv : is_valid_position s.world x y = true
    · rw [if_neg (not_not_intro hv), if_pos hbad, if_neg hhp2, if_neg hkwm, htail]
      simp [set_concat_length]
    · rw [if_pos hv, if_neg hhp2, if_neg hkwm, htail]
      simp [set_concat_length]

/-- Construction at a free in-bounds cell, with valid hit points and
mana: the character is appended, registered on the grid at (x, y), and
its fields are assigned. -/
theorem construct_placed {s : GameState} (hWF : s.world.WF) {kind : CKind} {x y hp mana : Int}
    (hv : is_valid_position s.world x y = true)
    (hocc : s.world.is_occupied x y = false)
    (hhp : 0 ≤ hp) (hm : kind = CKind.wizard → 0 ≤ mana) :
    ∃ w2, s.world.setCell x y (some s.chars.length) = some w2 ∧
      construct s kind x y hp mana =
        ({ world := w2, chars := s.chars ++
            [{ x := x, y := y, hit_points := hp, protection := 0,
               mana := if kind = CKind.wizard then mana else 0, items := [], kind := kind }] },
         .ok s.chars.length) := by
  have hc0 : ({ s with chars := s.chars ++
      [({ x := -1, y := -1, hit_points := 0, protection := 0, mana := 0, items := [],
          kind := kind } : Character)] } : GameState).chars.get? s.chars.length = some
      { x := -1, y := -1, hit_points := 0, protection := 0, mana := 0, items := [],
        kind := kind } := List.get?_concat_length _ _
  have hkwm : ¬ (kind = CKind.wizard ∧ mana < 0) := by
    intro hcontra
    have := hm hcontra.1
    omega
  obtain ⟨w2, hset, hsp⟩ := set_position_eq hc0 hWF hv
  simp only at hsp
  refine ⟨w2, hset, ?_⟩
  have hc1 : ({ world := w2, chars := ((s.chars ++
        [({ x := -1, y := -1, hit_points := 0, protection := 0, mana := 0, items := [],
            kind := kind } : Character)]).set s.chars.length
        { x := x, y := y, hit_points := 0, protection := 0, mana := 0, items := [],
          kind := kind }) } : GameState).chars.get? s.chars.length = some
      { x := x, y := y, hit_points := 0, protection := 0, mana := 0, items := [],
        kind := kind } := by
    rw [set_concat_length]
    exact List.get?_concat_length _ _
  have htail := construct_updates
    ({ world := w2, chars := ((s.chars ++
        [({ x := -1, y := -1, hit_points := 0, protection := 0, mana := 0, items := [],
            kind := kind } : Character)]).set s.chars.length
        ({ x := x, y := y, hit_points := 0, protection := 0, mana := 0, items := [],
           kind := kind } : Character)) } : GameState) s.chars.length
    ({ x := x, y := y, hit_points := 0, protection := 0, mana := 0, items := [],
       kind := kind } : Character)
    kind hp mana hc1
  have hhp2 : ¬ (hp < 0) := by omega
  have hocc2 : ¬ (s.world.is_occupied x y = true) := by simp [hocc]
  simp only [construct]
  rw [if_neg (not_not_intro hv), if_neg hocc2, hsp, if_neg hhp2, if_neg hkwm, htail]
  simp [set_concat_length, List.set_set]

/-- C1: counterexample. An archer at (0, 0) and a target at (3, 0) satisfy
the claimed gate (|dx| = 3 ≤ 5 and dy = 0), yet range_attack leaves the
whole state unchanged instead of dealing 5 damage: the shared damage
helper re-checks the melee range |dx| = 1 before touching the target. -/
theorem C1_counterexample :
    posAt ((construct ((construct (freshState 10) CKind.archer 0 0 30 0).1)
      CKind.base 3 0 30 0).1) 0 = some (0, 0) ∧
    posAt ((construct ((construct (freshState 10) CKind.archer 0 0 30 0).1)
      CKind.base 3 0 30 0).1) 1 = some (3, 0) ∧
    hpAt ((construct ((construct (freshState 10) CKind.archer 0 0 30 0).1)
      CKind.base 3 0 30 0).1) 1 = some 30 ∧
    protAt ((construct ((construct (freshState 10) CKind.archer 0 0 30 0).1)
      CKind.base 3 0 30 0).1) 1 = some 0 ∧
    range_attack ((construct ((construct (freshState 10) CKind.archer 0 0 30 0).1)
      CKind.base 3 0 30 0).1) 0 1 =
      Except.ok ((construct ((construct (freshState 10) CKind.archer 0 0 30 0).1)
        CKind.base 3 0 30 0).1) :=
  ⟨rfl, rfl, rfl, rfl, rfl⟩

/-- C1 (amended): range_attack deals 5 damage through the protection-aware
path exactly when the melee condition |dx| = 1 and dy = 0 holds; at every
other distance, inside or outside the |dx| ≤ 5, dy = 0 gate, it is a
no-op, because the shared damage helper re-checks melee range. -/
theorem C1_range_attack_amended {s : GameState} (hWF : s.world.WF) {i j : Nat}
    {a t : Character} (hi : s.chars.get? i = some a) (hj : s.chars.get? j = some t)
    (hk : a.kind = CKind.archer) :
    (¬ ((distance a t).1 = 1 ∧ (distance a t).2 = 0) → range_attack s i j = Except.ok s) ∧
    ((distance a t).1 = 1 → (distance a t).2 = 0 →
      (0 < t.protection →
        range_attack s i j =
          Except.ok { s with chars := (s.chars.set j { t with protection := max (t.protection - 5) 0 }) }) ∧
      (t.protection = 0 →
        ∃ s2, range_attack s i j = Except.ok s2 ∧
          hpAt s2 j = some (max (t.hit_points - 5) 0) ∧ protAt s2 j = some 0)) := by
  constructor
  · intro hnot
    have hca : can_attack a t = false := by
      simp only [can_attack, decide_eq_false_iff_not]
      exact hnot
    by_cases hgate : (distance a t).1 ≤ 5 ∧ (distance a t).2 = 0
    · rw [range_attack_in_gate hi hj hgate]
      exact deal_damage_out_of_range hi hj hca
    · exact range_attack_out_of_gate hi hj hgate
  · intro h1 h2
    have hca : can_attack a t = true := by
      simp only [can_attack, decide_eq_true_eq]
      exact ⟨h1, h2⟩
    have hgate : (distance a t).1 ≤ 5 ∧ (distance a t).2 = 0 := ⟨by omega, h2⟩
    constructor
    · intro hp
      rw [range_attack_in_gate hi hj hgate]
      exact deal_damage_protection hi hj hca hp (by omega)
    · intro hp
      rw [range_attack_in_gate hi hj hgate, deal_damage_health hi hj hca hp]
      by_cases hz : max (t.hit_points - 5) 0 = 0
      · rw [lose_health_zero hj (by omega) hz]
        have hjmid : ({ s with chars := (s.chars.set j { t with hit_points := max (t.hit_points - 5) 0 }) } :
            GameState).chars.get? j =
            some { t with hit_points := max (t.hit_points - 5) 0 } :=
          get?_set_self _ (by simpa [List.length_set] using get?_some_lt hj)
        cases hval : is_valid_position s.world t.x t.y with
        | false =>
          rw [remove_noop hjmid hval]
          refine ⟨_, rfl, ?_, ?_⟩
          · simp only [hpAt]
            rw [hjmid]
            rfl
          · simp only [protAt]
            rw [hjmid]
            simp [hp]
        | true =>
          obtain ⟨w2, hset, heq⟩ := remove_eq hjmid hWF hval
          rw [heq]
          have hfin : ((({ s with chars := (s.chars.set j { t with hit_points := max (t.hit_points - 5) 0 }) } :
              GameState).chars.set j
              { { t with hit_points := max (t.hit_points - 5) 0 } with
                  x := -1, y := -1 })).get? j =
              some { { t with hit_points := max (t.hit_points - 5) 0 } with
                  x := -1, y := -1 } :=
            get?_set_self _ (by simpa [List.length_set] using get?_some_lt hj)
          refine ⟨_, rfl, ?_, ?_⟩
          · simp only [hpAt]
            rw [hfin]
            rfl
          · simp only [protAt]
            rw [hfin]
            simp [hp]
      · rw [lose_health_pos hj (by omega) hz]
        refine ⟨_, rfl, ?_, ?_⟩
        · simp only [hpAt]
          rw [get?_set_self _ (by simpa [List.length_set] using get?_some_lt hj)]
          rfl
        · simp only [protAt]
          rw [get?_set_self _ (by simpa [List.length_set] using get?_some_lt hj)]
          simp [hp]

/-- C1 witness: archer at (0, 0), protected target at (1, 0): the melee
case of the amended theorem applies and protection absorbs the 5 damage
while hit points stay at 30. -/
theorem C1_range_attack_amended_witness :
    hpAt (getOk (range_attack (getOk (gain_protection (construct (construct (freshState 10) CKind.archer 0 0 30 0).1 CKind.base 1 0 30 0).1 1 4) (freshState 10)) 0 1) (getOk (gain_protection (construct (construct (freshState 10) CKind.archer 0 0 30 0).1 CKind.base 1 0 30 0).1 1 4) (freshState 10))) 1 = some 30 ∧
    protAt (getOk (range_attack (getOk (gain_protection (construct (construct (freshState 10) CKind.archer 0 0 30 0).1 CKind.base 1 0 30 0).1 1 4) (freshState 10)) 0 1) (getOk (gain_protection (construct (construct (freshState 10) CKind.archer 0 0 30 0).1 CKind.base 1 0 30 0).1 1 4) (freshState 10))) 1 = some 0 := by
  have hInv0 : Inv (freshState 10) := Inv_freshState 10 (by omega)
  have hInvA : Inv (construct (freshState 10) CKind.archer 0 0 30 0).1 :=
    Inv_construct hInv0 _ _ _ _ _
  have hInvB : Inv (construct (construct (freshState 10) CKind.archer 0 0 30 0).1 CKind.base 1 0 30 0).1 :=
    Inv_construct hInvA _ _ _ _ _
  have hgp : gain_protection (construct (construct (freshState 10) CKind.archer 0 0 30 0).1 CKind.base 1 0 30 0).1 1 4 = Except.ok (getOk (gain_protection (construct (construct (freshState 10) CKind.archer 0 0 30 0).1 CKind.base 1 0 30 0).1 1 4) (freshState 10)) := rfl
  have hInvP : Inv (getOk (gain_protection (construct (construct (freshState 10) CKind.archer 0 0 30 0).1 CKind.base 1 0 30 0).1 1 4) (freshState 10)) := Inv_gain_protection hInvB hgp
  have hi0 : ((getOk (gain_protection (construct (construct (freshState 10) CKind.archer 0 0 30 0).1 CKind.base 1 0 30 0).1 1 4) (freshState 10))).chars.get? 0 = some
      { x := 0, y := 0, hit_points := 30, protection := 0, mana := 0, items := [],
         kind := CKind.archer } := rfl
  have hj1 : ((getOk (gain_protection (construct (construct (freshState 10) CKind.archer 0 0 30 0).1 CKind.base 1 0 30 0).1 1 4) (freshState 10))).chars.get? 1 = some
      { x := 1, y := 0, hit_points := 30, protection := 4, mana := 0, items := [],
         kind := CKind.base } := rfl
  have h := ((C1_range_attack_amended hInvP.1 hi0 hj1 rfl).2 (by decide) (by decide)).1 (by decide)
  constructor
  · rw [h]
    rfl
  · rw [h]
    rfl

/-- C2: counterexample. From a reachable, consistent state (one character
constructed at (1, 1) on an empty 5 by 5 world), a direct public
set_position to (2, 1) leaves the old cell (1, 1) still pointing at the
character while its recorded position is (2, 1): the grid and the entity
coordinates disagree, refuting the claim that set_position leaves no such
state. -/
theorem C2_counterexample :
    cellAt (set_position (construct (freshState 5) CKind.base 1 1 9 0).1 0 2 1).world 1 1 = some 0 ∧
    cellAt (set_position (construct (freshState 5) CKind.base 1 1 9 0).1 0 2 1).world 2 1 = some 0 ∧
    posAt (set_position (construct (freshState 5) CKind.base 1 1 9 0).1 0 2 1) 0 = some (2, 1) :=
  ⟨rfl, rfl, rfl⟩

/-- C2 (amended): the grid-entity consistency invariant is preserved by
construction, remove, move, all attacks (defeat removal included),
cast_spell and lose_health; set_position preserves it only in the way the
program itself uses it, on an unplaced entity and an empty target cell.
A bare set_position on a placed entity can break it (see the
counterexample). -/
theorem C2_invariant_preservation {s : GameState} (hInv : Inv s) :
    (∀ kind x y hp mana, Inv (construct s kind x y hp mana).1) ∧
    (∀ i s2, remove s i = Except.ok s2 → Inv s2) ∧
    (∀ i direction s2, move s i direction = Except.ok s2 → Inv s2) ∧
    (∀ i j s2, attack s i j = Except.ok s2 → Inv s2) ∧
    (∀ i j s2, power_attack s i j = Except.ok s2 → Inv s2) ∧
    (∀ i j s2, range_attack s i j = Except.ok s2 → Inv s2) ∧
    (∀ i j n s2, cast_spell s i j n = Except.ok s2 → Inv s2) ∧
    (∀ i d s2, lose_health s i d = Except.ok s2 → Inv s2) ∧
    (∀ i c x y, s.chars.get? i = some c →
      is_valid_position s.world c.x c.y = false →
      (is_valid_position s.world x y = true → cellAt s.world x y = none) →
      Inv (set_position s i x y)) := by
  refine ⟨?_, ?_, ?_, ?_, ?_, ?_, ?_, ?_, ?_⟩
  · intro kind x y hp mana
    exact Inv_construct hInv kind x y hp mana
  · intro i s2 h
    exact Inv_remove hInv h
  · intro i direction s2 h
    exact Inv_move hInv h
  · intro i j s2 h
    exact Inv_attack hInv h
  · intro i j s2 h
    exact Inv_power_attack hInv h
  · intro i j s2 h
    exact Inv_range_attack hInv h
  · intro i j n s2 h
    exact Inv_cast_spell hInv h
  · intro i d s2 h
    exact Inv_lose_health hInv h
  · intro i c x y hc hun hemp
    by_cases hv : is_valid_position s.world x y = true
    · exact Inv_set_position_fresh hInv hc hun hv (hemp hv)
    · have hnoop : set_position s i x y = s := by
        simp only [set_position, List.get?_eq_getElem?, getElem?_of_get? hc]
        rw [if_pos hv]
      rw [hnoop]
      exact hInv

/-- C2 witness: the construction clause of the preservation theorem
applied to a concrete character on a fresh 5 by 5 world. -/
theorem C2_invariant_preservation_witness :
    Inv (construct (freshState 5) CKind.base 1 1 9 0).1 :=
  (C2_invariant_preservation (Inv_freshState 5 (by omega))).1 CKind.base 1 1 9 0

/-- C3: protection never overflows into health.  With an attacker in melee
range, any base damage d ≥ 0 dealt through the shared helper (used by
attack with 10, power_attack with 20, range_attack with 5 and the attacks
of cast_spell) reduces only protection, clamped at 0, when the target has
protection, and only hit points, clamped at 0, when it has none. -/
theorem C3_no_damage_overflow {s : GameState} (hWF : s.world.WF) {i j : Nat}
    {a t : Character} (d : Int)
    (hi : s.chars.get? i = some a) (hj : s.chars.get? j = some t)
    (hca : can_attack a t = true) (hd : 0 ≤ d) :
    (attack s i j = deal_damage s i j 10) ∧
    (power_attack s i j = deal_damage s i j 20) ∧
    (range_attack s i j = deal_damage s i j 5) ∧
    (0 < t.protection →
      ∃ s2, deal_damage s i j d = Except.ok s2 ∧
        protAt s2 j = some (max (t.protection - d) 0) ∧
        hpAt s2 j = some t.hit_points) ∧
    (t.protection = 0 →
      ∃ s2, deal_damage s i j d = Except.ok s2 ∧
        hpAt s2 j = some (max (t.hit_points - d) 0) ∧
        protAt s2 j = some t.protection) := by
  have hca2 : (distance a t).1 = 1 ∧ (distance a t).2 = 0 := of_decide_eq_true hca
  have hgate : (distance a t).1 ≤ 5 ∧ (distance a t).2 = 0 := ⟨by omega, hca2.2⟩
  refine ⟨rfl, rfl, range_attack_in_gate hi hj hgate, ?_, ?_⟩
  · intro hp
    rw [deal_damage_protection hi hj hca hp hd]
    refine ⟨_, rfl, ?_, ?_⟩
    · simp only [protAt]
      rw [get?_set_self _ (by simpa [List.length_set] using get?_some_lt hj)]
      rfl
    · simp only [hpAt]
      rw [get?_set_self _ (by simpa [List.length_set] using get?_some_lt hj)]
      rfl
  · intro hp
    rw [deal_damage_health hi hj hca hp]
    by_cases hz : max (t.hit_points - d) 0 = 0
    · rw [lose_health_zero hj hd hz]
      have hjmid : ({ s with chars := (s.chars.set j { t with hit_points := max (t.hit_points - d) 0 }) } :
          GameState).chars.get? j =
          some { t with hit_points := max (t.hit_points - d) 0 } :=
        get?_set_self _ (by simpa [List.length_set] using get?_some_lt hj)
      cases hval : is_valid_position s.world t.x t.y with
      | false =>
        rw [remove_noop hjmid hval]
        refine ⟨_, rfl, ?_, ?_⟩
        · simp only [hpAt]
          rw [hjmid]
          rfl
        · simp only [protAt]
          rw [hjmid]
          rfl
      | true =>
        obtain ⟨w2, hset, heq⟩ := remove_eq hjmid hWF hval
        rw [heq]
        have hfin : ((({ s with chars := (s.chars.set j { t with hit_points := max (t.hit_points - d) 0 }) } :
            GameState).chars.set j
            { { t with hit_points := max (t.hit_points - d) 0 } with
                x := -1, y := -1 })).get? j =
            some { { t with hit_points := max (t.hit_points - d) 0 } with
                x := -1, y := -1 } :=
          get?_set_self _ (by simpa [List.length_set] using get?_some_lt hj)
        refine ⟨_, rfl, ?_, ?_⟩
        · simp only [hpAt]
          rw [hfin]
          rfl
        · simp only [protAt]
          rw [hfin]
          rfl
    · rw [lose_health_pos hj hd hz]
      refine ⟨_, rfl, ?_, ?_⟩
      · simp only [hpAt]
        rw [get?_set_self _ (by simpa [List.length_set] using get?_some_lt hj)]
        rfl
      · simp only [protAt]
        rw [get?_set_self _ (by simpa [List.length_set] using get?_some_lt hj)]
        rfl

/-- C3 witness: the test-scenario instance of the spec — a target with
protection 4 hit for 20 base damage keeps its 30 hit points and ends with
protection 0. -/
theorem C3_no_damage_overflow_witness :
    protAt (getOk (deal_damage (getOk (gain_protection (construct (construct (freshState 10) CKind.archer 0 0 30 0).1 CKind.base 1 0 30 0).1 1 4) (freshState 10)) 0 1 20) (getOk (gain_protection (construct (construct (freshState 10) CKind.archer 0 0 30 0).1 CKind.base 1 0 30 0).1 1 4) (freshState 10))) 1 = some 0 ∧
    hpAt (getOk (deal_damage (getOk (gain_protection (construct (construct (freshState 10) CKind.archer 0 0 30 0).1 CKind.base 1 0 30 0).1 1 4) (freshState 10)) 0 1 20) (getOk (gain_protection (construct (construct (freshState 10) CKind.archer 0 0 30 0).1 CKind.base 1 0 30 0).1 1 4) (freshState 10))) 1 = some 30 := by
  have hInv0 : Inv (freshState 10) := Inv_freshState 10 (by omega)
  have hInvA : Inv (construct (freshState 10) CKind.archer 0 0 30 0).1 :=
    Inv_construct hInv0 _ _ _ _ _
  have hInvB : Inv (construct (construct (freshState 10) CKind.archer 0 0 30 0).1 CKind.base 1 0 30 0).1 :=
    Inv_construct hInvA _ _ _ _ _
  have hgp : gain_protection (construct (construct (freshState 10) CKind.archer 0 0 30 0).1 CKind.base 1 0 30 0).1 1 4 = Except.ok (getOk (gain_protection (construct (construct (freshState 10) CKind.archer 0 0 30 0).1 CKind.base 1 0 30 0).1 1 4) (freshState 10)) := rfl
  have hInvP : Inv (getOk (gain_protection (construct (construct (freshState 10) CKind.archer 0 0 30 0).1 CKind.base 1 0 30 0).1 1 4) (freshState 10)) := Inv_gain_protection hInvB hgp
  have hi0 : ((getOk (gain_protection (construct (construct (freshState 10) CKind.archer 0 0 30 0).1 CKind.base 1 0 30 0).1 1 4) (freshState 10))).chars.get? 0 = some
      { x := 0, y := 0, hit_points := 30, protection := 0, mana := 0, items := [],
         kind := CKind.archer } := rfl
  have hj1 : ((getOk (gain_protection (construct (construct (freshState 10) CKind.archer 0 0 30 0).1 CKind.base 1 0 30 0).1 1 4) (freshState 10))).chars.get? 1 = some
      { x := 1, y := 0, hit_points := 30, protection := 4, mana := 0, items := [],
         kind := CKind.base } := rfl
  obtain ⟨s2, heq, hprot, hhp⟩ :=
    (C3_no_damage_overflow hInvP.1 20 hi0 hj1 (by decide) (by omega)).2.2.2.1 (by decide)
  constructor
  · rw [heq]
    simp only [getOk]
    rw [hprot]
    decide
  · rw [heq]
    simp only [getOk]
    rw [hhp]

/-- C4: counterexample.  A character constructed at (1, 1) with 5 hit
points is defeated by lose_health 5 and leaves the map, but a subsequent
public move call wraps its sentinel position to (3, 4) and places it back
on the map while its hit points are still 0 — a reachable state in which
a character with hit_points 0 occupies a map cell. -/
theorem C4_counterexample :
    hpAt (getOk (move (getOk (lose_health (construct (freshState 5) CKind.base 1 1 5 0).1 0 5) (construct (freshState 5) CKind.base 1 1 5 0).1) 0 "left") (getOk (lose_health (construct (freshState 5) CKind.base 1 1 5 0).1 0 5) (construct (freshState 5) CKind.base 1 1 5 0).1)) 0 = some 0 ∧
    posAt (getOk (move (getOk (lose_health (construct (freshState 5) CKind.base 1 1 5 0).1 0 5) (construct (freshState 5) CKind.base 1 1 5 0).1) 0 "left") (getOk (lose_health (construct (freshState 5) CKind.base 1 1 5 0).1 0 5) (construct (freshState 5) CKind.base 1 1 5 0).1)) 0 = some (3, 4) ∧
    cellAt (getOk (move (getOk (lose_health (construct (freshState 5) CKind.base 1 1 5 0).1 0 5) (construct (freshState 5) CKind.base 1 1 5 0).1) 0 "left") (getOk (lose_health (construct (freshState 5) CKind.base 1 1 5 0).1 0 5) (construct (freshState 5) CKind.base 1 1 5 0).1)).world 3 4 = some 0 :=
  ⟨rfl, rfl, rfl⟩

/-- C4 (amended): immediately after any lose_health call that leaves a
character at 0 hit points, that character occupies no map cell.  The
property is not preserved by later operations: construction can place a
character that already has 0 hit points, and a move of a defeated
character puts it back on the map (see the counterexample). -/
theorem C4_defeat_removes_from_map {s : GameState} (hInv : Inv s) {i : Nat} {d : Int}
    {s2 : GameState} (h : lose_health s i d = Except.ok s2)
    (h0 : hpAt s2 i = some 0) :
    ∀ x y : Int, 0 ≤ x → x < s2.world.width → 0 ≤ y → y < s2.world.height →
      cellAt s2.world x y ≠ some i := by
  have hInv2 : Inv s2 := Inv_lose_health hInv h
  cases hc : s.chars.get? i with
  | none =>
    rw [lose_health_none hc] at h
    cases h
    rw [hpAt, hc] at h0
    cases h0
  | some c =>
    by_cases hd : d < 0
    · rw [lose_health_err hc hd] at h
      cases h
    · by_cases hz : max (c.hit_points - d) 0 = 0
      · rw [lose_health_zero hc (by omega) hz] at h
        have hmidc : ({ s with chars := (s.chars.set i { c with hit_points := max (c.hit_points - d) 0 }) } :
            GameState).chars.get? i = some { c with hit_points := max (c.hit_points - d) 0 } :=
          get?_set_self _ (by simpa [List.length_set] using get?_some_lt hc)
        cases hval : is_valid_position s.world c.x c.y with
        | false =>
          rw [remove_noop hmidc hval] at h
          cases h
          intro x y hx0 hxw hy0 hyh hcell
          have hiff := (hInv2.2.2 i _ hmidc x y hx0 hxw hy0 hyh).mp hcell
          obtain ⟨e1, e2⟩ := hiff
          have hvv : is_valid_position s.world c.x c.y = true := by
            rw [is_valid_position_iff]
            simp only at e1 e2
            exact ⟨by omega, by rw [e1]; exact hxw, by omega, by rw [e2]; exact hyh⟩
          rw [hvv] at hval
          cases hval
        | true =>
          obtain ⟨w2, hset, heq⟩ := remove_eq hmidc hInv.1 hval
          rw [heq] at h
          cases h
          intro x y hx0 hxw hy0 hyh hcell
          have hfinc := get?_set_self (l := ({ s with chars := (s.chars.set i { c with hit_points := max (c.hit_points - d) 0 }) } :
              GameState).chars)
            { { c with hit_points := max (c.hit_points - d) 0 } with x := -1, y := -1 }
            (by simpa [List.length_set] using get?_some_lt hc)
          have hiff := (hInv2.2.2 i _ hfinc x y hx0 hxw hy0 hyh).mp hcell
          obtain ⟨e1, e2⟩ := hiff
          simp only at e1
          omega
      · rw [lose_health_pos hc (by omega) hz] at h
        cases h
        simp only [hpAt] at h0
        rw [get?_set_self _ (by simpa [List.length_set] using get?_some_lt hc)] at h0
        have hmax : max (c.hit_points - d) 0 = 0 := by simpa using h0
        exact absurd hmax hz

/-- C4 witness: the defeated character of the counterexample state indeed
occupies no cell immediately after the defeat, before any later move. -/
theorem C4_defeat_removes_from_map_witness :
    cellAt (getOk (lose_health (construct (freshState 5) CKind.base 1 1 5 0).1 0 5) (construct (freshState 5) CKind.base 1 1 5 0).1).world 1 1 ≠ some 0 := by
  have hInv0 : Inv (freshState 5) := Inv_freshState 5 (by omega)
  have hInvV0 : Inv (construct (freshState 5) CKind.base 1 1 5 0).1 :=
    Inv_construct hInv0 _ _ _ _ _
  have h : lose_health (construct (freshState 5) CKind.base 1 1 5 0).1 0 5 = Except.ok (getOk (lose_health (construct (freshState 5) CKind.base 1 1 5 0).1 0 5) (construct (freshState 5) CKind.base 1 1 5 0).1) := rfl
  exact C4_defeat_removes_from_map hInvV0 h rfl 1 1 (by decide) (by decide) (by decide)
    (by decide)

/-- C5: lose_health clamps hit points at max(hp - d, 0), so they never go
negative, and exactly when the result is 0 the character is removed from
the map: its position becomes the (-1, -1) sentinel and its former cell
is cleared; when the result is nonzero only the hit points change. -/
theorem C5_lose_health_spec {s : GameState} (hWF : s.world.WF) {i : Nat} {c : Character}
    (d : Int) (hc : s.chars.get? i = some c) (hd : 0 ≤ d)
    (hpos : is_valid_position s.world c.x c.y = true ∨ (c.x, c.y) = (-1, -1)) :
    ∃ s2, lose_health s i d = Except.ok s2 ∧
      hpAt s2 i = some (max (c.hit_points - d) 0) ∧
      0 ≤ max (c.hit_points - d) 0 ∧
      (max (c.hit_points - d) 0 ≠ 0 →
        s2 = { s with chars := (s.chars.set i { c with hit_points := max (c.hit_points - d) 0 }) }) ∧
      (max (c.hit_points - d) 0 = 0 →
        posAt s2 i = some (-1, -1) ∧
        (is_valid_position s.world c.x c.y = true → cellAt s2.world c.x c.y = none)) := by
  by_cases hz : max (c.hit_points - d) 0 = 0
  · rw [lose_health_zero hc hd hz]
    have hmidc : ({ s with chars := (s.chars.set i { c with hit_points := max (c.hit_points - d) 0 }) } :
        GameState).chars.get? i = some { c with hit_points := max (c.hit_points - d) 0 } :=
      get?_set_self _ (by simpa [List.length_set] using get?_some_lt hc)
    cases hval : is_valid_position s.world c.x c.y with
    | false =>
      rw [remove_noop hmidc hval]
      refine ⟨_, rfl, ?_, le_max_right _ _, fun hne => absurd hz hne, fun _ => ⟨?_, ?_⟩⟩
      · simp only [hpAt]
        rw [hmidc]
        rfl
      · rcases hpos with hpos | hpos
        · simp [hpos] at hval
        · have e1 : c.x = -1 := congrArg Prod.fst hpos
          have e2 : c.y = -1 := congrArg Prod.snd hpos
          simp only [posAt]
          rw [hmidc]
          simp [e1, e2]
      · intro hvv
        exact absurd hvv Bool.false_ne_true
    | true =>
      obtain ⟨hx0, hxw, hy0, hyh⟩ := is_valid_position_iff.mp hval
      obtain ⟨w2q, hsetq, hw2w, hw2h, hw2WF, hcellq, hotherq⟩ :=
        setCell_spec hWF none hx0 hxw hy0 hyh
      obtain ⟨w2, hset, heq⟩ := remove_eq hmidc hWF hval
      have hset2 : s.world.setCell c.x c.y none = some w2 := hset
      rw [hset2] at hsetq
      cases hsetq
      rw [heq]
      have hfin := get?_set_self (l := ({ s with chars := (s.chars.set i { c with hit_points := max (c.hit_points - d) 0 }) } :
          GameState).chars)
        { { c with hit_points := max (c.hit_points - d) 0 } with x := -1, y := -1 }
        (by simpa [List.length_set] using get?_some_lt hc)
      refine ⟨_, rfl, ?_, le_max_right _ _, fun hne => absurd hz hne, fun _ => ⟨?_, ?_⟩⟩
      · simp only [hpAt]
        rw [hfin]
        rfl
      · simp only [posAt]
        rw [hfin]
        rfl
      · intro _
        exact hcellq
  · rw [lose_health_pos hc hd hz]
    refine ⟨_, rfl, ?_, le_max_right _ _, fun _ => rfl, fun h0 => absurd h0 hz⟩
    simp only [hpAt]
    rw [get?_set_self _ (by simpa [List.length_set] using get?_some_lt hc)]
    rfl

/-- C5 witness: a character with 5 hit points at (1, 1) loses 7: hit
points clamp to 0, the position resets to the sentinel and the former
cell empties. -/
theorem C5_lose_health_spec_witness :
    hpAt (getOk (lose_health (construct (freshState 5) CKind.base 1 1 5 0).1 0 7)
      (construct (freshState 5) CKind.base 1 1 5 0).1) 0 = some (max (5 - 7) 0) ∧
    posAt (getOk (lose_health (construct (freshState 5) CKind.base 1 1 5 0).1 0 7)
      (construct (freshState 5) CKind.base 1 1 5 0).1) 0 = some (-1, -1) ∧
    cellAt (getOk (lose_health (construct (freshState 5) CKind.base 1 1 5 0).1 0 7)
      (construct (freshState 5) CKind.base 1 1 5 0).1).world 1 1 = none := by
  have hInv0 : Inv (freshState 5) := Inv_freshState 5 (by omega)
  have hInvV : Inv (construct (freshState 5) CKind.base 1 1 5 0).1 :=
    Inv_construct hInv0 _ _ _ _ _
  have hc : (construct (freshState 5) CKind.base 1 1 5 0).1.chars.get? 0 = some
      { x := 1, y := 1, hit_points := 5, protection := 0, mana := 0, items := [],
        kind := CKind.base } := rfl
  obtain ⟨s2, heq, hhp, _, _, hzero⟩ :=
    C5_lose_health_spec hInvV.1 7 hc (by omega) (Or.inl (by decide))
  obtain ⟨hpos2, hcell⟩ := hzero (by decide)
  refine ⟨?_, ?_, ?_⟩
  · rw [heq]
    simp only [getOk]
    exact hhp
  · rw [heq]
    simp only [getOk]
    exact hpos2
  · rw [heq]
    simp only [getOk]
    exact hcell (by decide)

/-- C6: move resolves the four directions case-insensitively to unit
deltas, wraps the destination toroidally with mod width and mod height,
rejects an occupied destination with no state change, and otherwise
clears the old cell, occupies the destination, and runs the post-move
hook (mana + 1 for wizards, nothing for everyone else). -/
theorem C6_move_spec {s : GameState} (hInv : Inv s) {i : Nat} {c : Character}
    {direction : String} {dx dy : Int}
    (hc : s.chars.get? i = some c)
    (hval : is_valid_position s.world c.x c.y = true)
    (hd : get_move_delta direction = some (dx, dy)) :
    ((lower_direction direction = "left" → (dx, dy) = (-1, 0)) ∧
     (lower_direction direction = "right" → (dx, dy) = (1, 0)) ∧
     (lower_direction direction = "up" → (dx, dy) = (0, 1)) ∧
     (lower_direction direction = "down" → (dx, dy) = (0, -1))) ∧
    (s.world.is_occupied ((c.x + dx) % s.world.width) ((c.y + dy) % s.world.height) = true →
      move s i direction = Except.ok s) ∧
    (s.world.is_occupied ((c.x + dx) % s.world.width) ((c.y + dy) % s.world.height) = false →
      ∃ s2, move s i direction = Except.ok s2 ∧
        posAt s2 i = some ((c.x + dx) % s.world.width, (c.y + dy) % s.world.height) ∧
        cellAt s2.world ((c.x + dx) % s.world.width) ((c.y + dy) % s.world.height) = some i ∧
        cellAt s2.world c.x c.y = none ∧
        hpAt s2 i = some c.hit_points ∧
        protAt s2 i = some c.protection ∧
        manaAt s2 i = some (c.mana + (if c.kind = CKind.wizard then 1 else 0))) := by
  refine ⟨⟨?_, ?_, ?_, ?_⟩, ?_, ?_⟩
  · intro hlow
    simp only [get_move_delta, hlow] at hd
    simp at hd
    simp only [Prod.mk.injEq]
    omega
  · intro hlow
    simp only [get_move_delta, hlow] at hd
    simp at hd
    simp only [Prod.mk.injEq]
    omega
  · intro hlow
    simp only [get_move_delta, hlow] at hd
    simp at hd
    simp only [Prod.mk.injEq]
    omega
  · intro hlow
    simp only [get_move_delta, hlow] at hd
    simp at hd
    simp only [Prod.mk.injEq]
    omega
  · intro hocc
    exact move_occupied hc hd hocc
  · intro hocc
    obtain ⟨s2, hmv, hInv2, ⟨c2, hc2, hx, hy, hhp, hprot, hkind, hmana⟩, hcellnew, hcellold⟩ :=
      move_free_spec hInv hc hval hd hocc
    refine ⟨s2, hmv, ?_, hcellnew, hcellold, ?_, ?_, ?_⟩
    · have hv : posAt s2 i = some (c2.x, c2.y) := by
        simp only [posAt]
        rw [hc2]
        rfl
      rw [hv, hx, hy]
    · have hv : hpAt s2 i = some c2.hit_points := by
        simp only [hpAt]
        rw [hc2]
        rfl
      rw [hv, hhp]
    · have hv : protAt s2 i = some c2.protection := by
        simp only [protAt]
        rw [hc2]
        rfl
      rw [hv, hprot]
    · have hv : manaAt s2 i = some c2.mana := by
        simp only [manaAt]
        rw [hc2]
        rfl
      rw [hv, hmana]

/-- C6 witness: the wrap example of the spec — on the 100 by 100 world a
character at (0, 10) moving left lands at (99, 10), occupying the new
cell and freeing the old one. -/
theorem C6_move_spec_witness :
    posAt (getOk (move (construct (freshState 100) CKind.base 0 10 50 0).1 0 "left") (construct (freshState 100) CKind.base 0 10 50 0).1) 0 = some (99, 10) ∧
    cellAt (getOk (move (construct (freshState 100) CKind.base 0 10 50 0).1 0 "left") (construct (freshState 100) CKind.base 0 10 50 0).1).world 99 10 = some 0 ∧
    cellAt (getOk (move (construct (freshState 100) CKind.base 0 10 50 0).1 0 "left") (construct (freshState 100) CKind.base 0 10 50 0).1).world 0 10 = none := by
  have hInv0 : Inv (freshState 100) := Inv_freshState 100 (by omega)
  have hInvU : Inv (construct (freshState 100) CKind.base 0 10 50 0).1 :=
    Inv_construct hInv0 _ _ _ _ _
  have hc : (construct (freshState 100) CKind.base 0 10 50 0).1.chars.get? 0 = some
      { x := 0, y := 10, hit_points := 50, protection := 0, mana := 0, items := [],
         kind := CKind.base } := rfl
  have hd : get_move_delta "left" = some (-1, 0) := rfl
  obtain ⟨_, _, hfree⟩ := C6_move_spec hInvU hc rfl hd
  obtain ⟨s2, hmv, hpos2, hcn, hco, _, _, _⟩ := hfree (by decide)
  refine ⟨?_, ?_, ?_⟩
  · rw [hmv]
    simp only [getOk]
    rw [hpos2]
    decide
  · rw [hmv]
    simp only [getOk]
    exact hcn
  · rw [hmv]
    simp only [getOk]
    exact hco

/-- C7: cast_spell with mana below 5 or the target out of melee range is
a no-op leaving the whole state unchanged; otherwise it deducts exactly 5
mana and performs the given number of basic attacks (the injected random
draw from 1..5) through the normal attack path. -/
theorem C7_cast_spell_spec {s : GameState} (hWF : s.world.WF) {i j : Nat} {w t : Character}
    (n : Nat) (hi : s.chars.get? i = some w) (hj : s.chars.get? j = some t)
    (hkind : w.kind = CKind.wizard) (hn1 : 1 ≤ n) (hn5 : n ≤ 5) :
    (w.mana < 5 → cast_spell s i j n = Except.ok s) ∧
    (can_attack w t = false → cast_spell s i j n = Except.ok s) ∧
    (5 ≤ w.mana → can_attack w t = true →
      cast_spell s i j n =
        attack_loop { s with chars := (s.chars.set i { w with mana := w.mana - 5 }) } i j n ∧
      ∃ s2, cast_spell s i j n = Except.ok s2 ∧ manaAt s2 i = some (w.mana - 5)) := by
  refine ⟨?_, ?_, ?_⟩
  · intro hm
    exact cast_spell_no_mana hi hj hm
  · intro hca
    by_cases hm : w.mana < 5
    · exact cast_spell_no_mana hi hj hm
    · exact cast_spell_out_of_range hi hj hm hca
  · intro hm hca
    have hm2 : ¬ w.mana < 5 := by omega
    have hact : cast_spell s i j n =
        attack_loop { s with chars := (s.chars.set i { w with mana := w.mana - 5 }) } i j n :=
      cast_spell_active hi hj hm2 hca
    refine ⟨hact, ?_⟩
    have hij : i ≠ j := by
      intro he
      subst he
      rw [hi] at hj
      cases hj
      simp [can_attack, distance] at hca
    have hmidWF : ({ s with chars := (s.chars.set i { w with mana := w.mana - 5 }) } :
        GameState).world.WF := hWF
    obtain ⟨s2, hloop, _⟩ := attack_loop_ok n _ hmidWF
    refine ⟨s2, by rw [hact]; exact hloop, ?_⟩
    have hframe := attack_loop_frame n _ s2 hloop i hij
    have hmidi : ({ s with chars := (s.chars.set i { w with mana := w.mana - 5 }) } :
        GameState).chars.get? i = some { w with mana := w.mana - 5 } :=
      get?_set_self _ (by simpa [List.length_set] using get?_some_lt hi)
    simp only [manaAt]
    rw [hframe, hmidi]
    rfl

/-- C7 witness: a wizard with 50 mana adjacent to a 100 hit-point target
casts with an injected draw of 3: mana drops to exactly 45 and the 3
ten-point attacks bring the target to 70. -/
theorem C7_cast_spell_spec_witness :
    manaAt (getOk (cast_spell (construct (construct (freshState 10) CKind.wizard 0 0 50 50).1
      CKind.base 1 0 100 0).1 0 1 3) (construct (construct (freshState 10) CKind.wizard 0 0 50 50).1
      CKind.base 1 0 100 0).1) 0 = some 45 ∧
    hpAt (getOk (cast_spell (construct (construct (freshState 10) CKind.wizard 0 0 50 50).1
      CKind.base 1 0 100 0).1 0 1 3) (construct (construct (freshState 10) CKind.wizard 0 0 50 50).1
      CKind.base 1 0 100 0).1) 1 = some 70 := by
  have hInv0 : Inv (freshState 10) := Inv_freshState 10 (by omega)
  have hInvW : Inv (construct (freshState 10) CKind.wizard 0 0 50 50).1 :=
    Inv_construct hInv0 _ _ _ _ _
  have hInvY : Inv (construct (construct (freshState 10) CKind.wizard 0 0 50 50).1
      CKind.base 1 0 100 0).1 :=
    Inv_construct hInvW _ _ _ _ _
  have hi0 : (construct (construct (freshState 10) CKind.wizard 0 0 50 50).1
      CKind.base 1 0 100 0).1.chars.get? 0 = some
      { x := 0, y := 0, hit_points := 50, protection := 0, mana := 50, items := [],
        kind := CKind.wizard } := rfl
  have hj1 : (construct (construct (freshState 10) CKind.wizard 0 0 50 50).1
      CKind.base 1 0 100 0).1.chars.get? 1 = some
      { x := 1, y := 0, hit_points := 100, protection := 0, mana := 0, items := [],
        kind := CKind.base } := rfl
  obtain ⟨_, _, hactive⟩ :=
    C7_cast_spell_spec hInvY.1 3 hi0 hj1 rfl (by omega) (by omega)
  obtain ⟨heq, s2, hok, hmana⟩ := hactive (by decide) (by decide)
  constructor
  · rw [hok]
    simp only [getOk]
    rw [hmana]
    decide
  · rfl

/-- C8: construction never raises for valid hit points and mana: at a
rejected cell (out of bounds or occupied) the object is created unplaced
at the (-1, -1) sentinel with the grid untouched; at a free in-bounds
cell it is registered on the grid at (x, y). -/
theorem C8_construct_spec {s : GameState} (hWF : s.world.WF) (kind : CKind) (x y hp mana : Int)
    (hhp : 0 ≤ hp) (hm : kind = CKind.wizard → 0 ≤ mana) :
    (construct s kind x y hp mana).2 = Except.ok s.chars.length ∧
    ((is_valid_position s.world x y = false ∨ s.world.is_occupied x y = true) →
      posAt (construct s kind x y hp mana).1 s.chars.length = some (-1, -1) ∧
      (construct s kind x y hp mana).1.world = s.world ∧
      hpAt (construct s kind x y hp mana).1 s.chars.length = some hp) ∧
    (is_valid_position s.world x y = true → s.world.is_occupied x y = false →
      posAt (construct s kind x y hp mana).1 s.chars.length = some (x, y) ∧
      cellAt (construct s kind x y hp mana).1.world x y = some s.chars.length ∧
      hpAt (construct s kind x y hp mana).1 s.chars.length = some hp) := by
  by_cases hbad : is_valid_position s.world x y = false ∨ s.world.is_occupied x y = true
  · have heq := construct_unplaced hbad hhp hm
    have h1 : (construct s kind x y hp mana).1 = { s with chars := s.chars ++
        [{ x := -1, y := -1, hit_points := hp, protection := 0,
           mana := if kind = CKind.wizard then mana else 0, items := [], kind := kind }] } := by
      rw [heq]
    have h2 : (construct s kind x y hp mana).2 = Except.ok s.chars.length := by
      rw [heq]
    refine ⟨h2, ?_, ?_⟩
    · intro _
      refine ⟨?_, ?_, ?_⟩
      · rw [h1]
        simp only [posAt]
        rw [List.get?_concat_length]
        rfl
      · rw [h1]
      · rw [h1]
        simp only [hpAt]
        rw [List.get?_concat_length]
        rfl
    · intro hv hocc
      rcases hbad with hbad | hbad
      · rw [hv] at hbad
        exact absurd hbad (by decide)
      · rw [hocc] at hbad
        exact absurd hbad (by decide)
  · push_neg at hbad
    obtain ⟨hvq, hoccq⟩ := hbad
    have hv : is_valid_position s.world x y = true := by
      cases hb : is_valid_position s.world x y with
      | true => rfl
      | false => exact absurd hb hvq
    have hocc : s.world.is_occupied x y = false := by
      cases hb : s.world.is_occupied x y with
      | false => rfl
      | true => exact absurd hb hoccq
    obtain ⟨w2, hset, heq⟩ := construct_placed hWF hv hocc hhp hm
    have h1 : (construct s kind x y hp mana).1 = { world := w2, chars := s.chars ++
        [{ x := x, y := y, hit_points := hp, protection := 0,
           mana := if kind = CKind.wizard then mana else 0, items := [], kind := kind }] } := by
      rw [heq]
    have h2 : (construct s kind x y hp mana).2 = Except.ok s.chars.length := by
      rw [heq]
    obtain ⟨hx0, hxw, hy0, hyh⟩ := is_valid_position_iff.mp hv
    obtain ⟨w2q, hsetq, hw2w, hw2h, hw2WF, hcellq, hotherq⟩ :=
      setCell_spec hWF (some s.chars.length) hx0 hxw hy0 hyh
    rw [hset] at hsetq
    cases hsetq
    refine ⟨h2, ?_, ?_⟩
    · intro hbad2
      rcases hbad2 with hbad2 | hbad2
      · rw [hv] at hbad2
        exact absurd hbad2 (by decide)
      · rw [hocc] at hbad2
        exact absurd hbad2 (by decide)
    · intro _ _
      refine ⟨?_, ?_, ?_⟩
      · rw [h1]
        simp only [posAt]
        rw [List.get?_concat_length]
        rfl
      · rw [h1]
        exact hcellq
      · rw [h1]
        simp only [hpAt]
        rw [List.get?_concat_length]
        rfl

/-- C8 witness: constructing at the out-of-bounds cell (7, 2) of a 5 by 5
world does not raise and yields an unplaced character with the world grid
untouched. -/
theorem C8_construct_spec_witness :
    (construct (freshState 5) CKind.base 7 2 40 0).2 = Except.ok 0 ∧
    posAt (construct (freshState 5) CKind.base 7 2 40 0).1 0 = some (-1, -1) ∧
    (construct (freshState 5) CKind.base 7 2 40 0).1.world = (freshState 5).world := by
  have hInv0 : Inv (freshState 5) := Inv_freshState 5 (by omega)
  obtain ⟨h2, hbadcase, _⟩ :=
    C8_construct_spec hInv0.1 CKind.base 7 2 40 0 (by omega) (fun hh => by cases hh)
  obtain ⟨hpos, hworld, _⟩ := hbadcase (Or.inl (by decide))
  exact ⟨h2, hpos, hworld⟩

/-- C9: the two error tiers are distinct.  The four amount mutators raise
InvalidAmount exactly on a negative amount and otherwise return normally;
WorldMap construction raises InvalidDimension exactly when a dimension is
not positive; and the contextual failures — unknown move direction,
occupied destination, out-of-range attack or spell, insufficient mana —
never raise and leave the state unchanged. -/
theorem C9_error_tiers {s : GameState} (hWF : s.world.WF) {i j : Nat} {c t : Character}
    (hc : s.chars.get? i = some c) (ht : s.chars.get? j = some t) :
    (∀ amount : Int, amount < 0 →
      gain_health s i amount = Except.error Err.invalidAmount ∧
      lose_health s i amount = Except.error Err.invalidAmount ∧
      gain_protection s i amount = Except.error Err.invalidAmount ∧
      lose_protection s i amount = Except.error Err.invalidAmount) ∧
    (∀ amount : Int, 0 ≤ amount →
      (∃ s2, gain_health s i amount = Except.ok s2) ∧
      (∃ s2, lose_health s i amount = Except.ok s2) ∧
      (∃ s2, gain_protection s i amount = Except.ok s2) ∧
      (∃ s2, lose_protection s i amount = Except.ok s2)) ∧
    (∀ width height : Int,
      ((width ≤ 0 ∨ height ≤ 0) ↔
        WorldMap.init width height = Except.error Err.invalidDimension)) ∧
    (∀ direction, get_move_delta direction = none → move s i direction = Except.ok s) ∧
    (∀ direction dx dy, get_move_delta direction = some (dx, dy) →
      s.world.is_occupied ((c.x + dx) % s.world.width) ((c.y + dy) % s.world.height) = true →
      move s i direction = Except.ok s) ∧
    (can_attack c t = false → ∀ d, deal_damage s i j d = Except.ok s) ∧
    (c.mana < 5 → (∀ n, cast_spell s i j n = Except.ok s) ∧ heal s i j = Except.ok s) ∧
    (can_attack c t = false → ∀ n, cast_spell s i j n = Except.ok s) := by
  refine ⟨?_, ?_, ?_, ?_, ?_, ?_, ?_, ?_⟩
  · intro amount ha
    exact ⟨gain_health_err hc ha, lose_health_err hc ha,
      gain_protection_err hc ha, lose_protection_err hc ha⟩
  · intro amount ha
    refine ⟨⟨_, gain_health_eq hc ha⟩, ?_, ⟨_, gain_protection_eq hc ha⟩,
      ⟨_, lose_protection_eq hc ha⟩⟩
    obtain ⟨s2, h2, _⟩ := lose_health_ok hWF ha
    exact ⟨s2, h2⟩
  · intro width height
    constructor
    · intro hbad
      unfold WorldMap.init
      rcases hbad with hb | hb
      · rw [if_pos hb]
      · by_cases hw : width ≤ 0
        · rw [if_pos hw]
        · rw [if_neg hw, if_pos hb]
    · intro herr
      by_contra hcon
      push_neg at hcon
      obtain ⟨h1, h2⟩ := hcon
      unfold WorldMap.init at herr
      rw [if_neg (by omega), if_neg (by omega)] at herr
      cases herr
  · intro direction hdir
    exact move_bad_direction hdir
  · intro direction dx dy hdir hocc
    exact move_occupied hc hdir hocc
  · intro hca d
    exact deal_damage_out_of_range hc ht hca
  · intro hmana
    exact ⟨fun n => cast_spell_no_mana hc ht hmana, heal_no_mana j hc hmana⟩
  · intro hca n
    by_cases hmana : c.mana < 5
    · exact cast_spell_no_mana hc ht hmana
    · exact cast_spell_out_of_range hc ht hmana hca

/-- C9 witness: on a concrete state, a negative heal amount raises
InvalidAmount, a zero map width raises InvalidDimension, and an unknown
direction and a low-mana spell both return with the state unchanged. -/
theorem C9_error_tiers_witness :
    gain_health (construct (construct (freshState 10) CKind.wizard 0 0 50 3).1
      CKind.base 1 0 100 0).1 0 (-3) = Except.error Err.invalidAmount ∧
    WorldMap.init 0 5 = Except.error Err.invalidDimension ∧
    move (construct (construct (freshState 10) CKind.wizard 0 0 50 3).1
      CKind.base 1 0 100 0).1 0 "sideways" = Except.ok (construct (construct (freshState 10)
      CKind.wizard 0 0 50 3).1 CKind.base 1 0 100 0).1 ∧
    cast_spell (construct (construct (freshState 10) CKind.wizard 0 0 50 3).1
      CKind.base 1 0 100 0).1 0 1 3 = Except.ok (construct (construct (freshState 10)
      CKind.wizard 0 0 50 3).1 CKind.base 1 0 100 0).1 := by
  have hInv0 : Inv (freshState 10) := Inv_freshState 10 (by omega)
  have hInvW : Inv (construct (freshState 10) CKind.wizard 0 0 50 3).1 :=
    Inv_construct hInv0 _ _ _ _ _
  have hInvY : Inv (construct (construct (freshState 10) CKind.wizard 0 0 50 3).1
      CKind.base 1 0 100 0).1 :=
    Inv_construct hInvW _ _ _ _ _
  have hc : (construct (construct (freshState 10) CKind.wizard 0 0 50 3).1
      CKind.base 1 0 100 0).1.chars.get? 0 = some
      { x := 0, y := 0, hit_points := 50, protection := 0, mana := 3, items := [],
        kind := CKind.wizard } := rfl
  have ht : (construct (construct (freshState 10) CKind.wizard 0 0 50 3).1
      CKind.base 1 0 100 0).1.chars.get? 1 = some
      { x := 1, y := 0, hit_points := 100, protection := 0, mana := 0, items := [],
        kind := CKind.base } := rfl
  have h := C9_error_tiers hInvY.1 hc ht
  exact ⟨(h.1 (-3) (by omega)).1, (h.2.2.1 0 5).mp (Or.inl (by omega)),
    h.2.2.2.1 "sideways" rfl, (h.2.2.2.2.2.2.1 (by decide)).1 3⟩

/-- C10: heal with at least 5 mana always works at any distance, on
placed, unplaced or identical characters: it deducts exactly 5 mana,
adds exactly 15 hit points, and touches neither the grid nor any
position — a defeated target healed back above 0 stays off the map. -/
theorem C10_heal_spec {s : GameState} {i j : Nat} {w t : Character}
    (hi : s.chars.get? i = some w) (hj : s.chars.get? j = some t)
    (hkind : w.kind = CKind.wizard) (hm : 5 ≤ w.mana) :
    ∃ s2, heal s i j = Except.ok s2 ∧
      manaAt s2 i = some (w.mana - 5) ∧
      hpAt s2 j = some (t.hit_points + 15) ∧
      s2.world = s.world ∧
      (∀ k, posAt s2 k = posAt s k) := by
  have hm2 : ¬ w.mana < 5 := by omega
  rw [heal_active j hi hm2]
  have hilen : i < s.chars.length := get?_some_lt hi
  by_cases hij : i = j
  · subst hij
    rw [hi] at hj
    cases hj
    have hmidj : ({ s with chars := (s.chars.set i { w with mana := w.mana - 5 }) } :
        GameState).chars.get? i = some { w with mana := w.mana - 5 } :=
      get?_set_self _ (by simpa [List.length_set] using hilen)
    rw [gain_health_eq hmidj (by omega)]
    have hfin := get?_set_self (l := ({ s with chars := (s.chars.set i { w with mana := w.mana - 5 }) } :
        GameState).chars)
      { { w with mana := w.mana - 5 } with
          hit_points := Character.hit_points { w with mana := w.mana - 5 } + 15 }
      (by simpa [List.length_set] using hilen)
    refine ⟨_, rfl, ?_, ?_, rfl, ?_⟩
    · simp only [manaAt]
      rw [hfin]
      rfl
    · simp only [hpAt]
      rw [hfin]
      rfl
    · intro k
      by_cases hk : k = i
      · subst hk
        simp only [posAt]
        rw [hfin, hi]
        rfl
      · simp only [posAt]
        rw [List.get?_set_ne _ _ (fun he => hk he.symm),
          List.get?_set_ne _ _ (fun he => hk he.symm)]
  · have hmidj : ({ s with chars := (s.chars.set i { w with mana := w.mana - 5 }) } :
        GameState).chars.get? j = some t := by
      rw [List.get?_set_ne _ _ hij]
      exact hj
    rw [gain_health_eq hmidj (by omega)]
    have hfinj := get?_set_self (l := ({ s with chars := (s.chars.set i { w with mana := w.mana - 5 }) } :
        GameState).chars)
      { t with hit_points := t.hit_points + 15 }
      (by simpa [List.length_set] using get?_some_lt hj)
    have hfini : ((({ s with chars := (s.chars.set i { w with mana := w.mana - 5 }) } :
        GameState).chars.set j { t with hit_points := t.hit_points + 15 })).get? i =
        some { w with mana := w.mana - 5 } := by
      rw [List.get?_set_ne _ _ (fun he => hij he.symm)]
      exact get?_set_self _ (by simpa [List.length_set] using hilen)
    refine ⟨_, rfl, ?_, ?_, rfl, ?_⟩
    · simp only [manaAt]
      rw [hfini]
      rfl
    · simp only [hpAt]
      rw [hfinj]
      rfl
    · intro k
      by_cases hk1 : k = j
      · subst hk1
        simp only [posAt]
        rw [hfinj, hj]
        rfl
      · by_cases hk2 : k = i
        · subst hk2
          simp only [posAt]
          rw [hfini, hi]
          rfl
        · simp only [posAt]
          rw [List.get?_set_ne _ _ (fun he => hk1 he.symm),
            List.get?_set_ne _ _ (fun he => hk2 he.symm)]

/-- C10 witness: a wizard with 50 mana heals a defeated, unplaced target:
mana drops to 45, hit points rise from 0 to 15 and the target stays off
the map. -/
theorem C10_heal_spec_witness :
    manaAt (getOk (heal (getOk (lose_health (construct (construct (freshState 10)
      CKind.wizard 0 0 50 50).1 CKind.base 1 0 5 0).1 1 5) (freshState 10)) 0 1)
      (freshState 10)) 0 = some 45 ∧
    hpAt (getOk (heal (getOk (lose_health (construct (construct (freshState 10)
      CKind.wizard 0 0 50 50).1 CKind.base 1 0 5 0).1 1 5) (freshState 10)) 0 1)
      (freshState 10)) 1 = some 15 ∧
    posAt (getOk (heal (getOk (lose_health (construct (construct (freshState 10)
      CKind.wizard 0 0 50 50).1 CKind.base 1 0 5 0).1 1 5) (freshState 10)) 0 1)
      (freshState 10)) 1 = some (-1, -1) := by
  have hi : (getOk (lose_health (construct (construct (freshState 10)
      CKind.wizard 0 0 50 50).1 CKind.base 1 0 5 0).1 1 5) (freshState 10)).chars.get? 0 = some
      { x := 0, y := 0, hit_points := 50, protection := 0, mana := 50, items := [],
        kind := CKind.wizard } := rfl
  have hj : (getOk (lose_health (construct (construct (freshState 10)
      CKind.wizard 0 0 50 50).1 CKind.base 1 0 5 0).1 1 5) (freshState 10)).chars.get? 1 = some
      { x := -1, y := -1, hit_points := 0, protection := 0, mana := 0, items := [],
        kind := CKind.base } := rfl
  obtain ⟨s2, hok, hmana, hhp, _, hpos⟩ := C10_heal_spec hi hj rfl (by decide)
  refine ⟨?_, ?_, ?_⟩
  · rw [hok]
    simp only [getOk]
    rw [hmana]
    decide
  · rw [hok]
    simp only [getOk]
    rw [hhp]
    decide
  · rw [hok]
    simp only [getOk]
    rw [hpos 1]
    rfl

end Fight
